import Mathlib

/-!
# Verification of the hevy-api-dashboard sync core

Shallow embedding of the reconciliation/sync engine of the repository
(`app/sync.py`, `app/repo.py`, `app/mappers.py`, `app/exercise_sync.py`,
`app/hevy_client.py`), together with proofs of the frozen claims.

Modelling conventions:
* Python `None`-able JSON fields become `Option _`.
* Python exceptions become `Except Unit _`; a remote call that can raise is a
  pure function returning `Except Unit _` (the remote is deterministic within
  one model, matching an unchanged remote across one invocation).
* Database failures are injected through a `DbFaults` record: each store
  operation that the Python code wraps (or fails to wrap) in `try/except` has
  a corresponding fault flag; `noFaults` is the fault-free execution.
* Numeric measurement scalars (weight_kg, reps, ...) are modelled as
  `Option Int`; the sync engine only passes them through, never computes on
  them, so the carrier type is irrelevant to every claim.
* The two unbounded `while True` pagination loops are given a `fuel`
  parameter; exhausting fuel behaves like `break`. All theorems either hold
  for every fuel or carry an explicit "enough fuel" hypothesis.
* Timestamps are carried as `Option String` (opaque pass-through values).
-/

namespace HevySync

/-- Python truthiness fallback `a or b` for an optional string:
`None or b = b`, `"" or b = b`, otherwise the string itself. -/
def orStr (v : Option String) (d : String) : String :=
  match v with
  | none => d
  | some s => if s = "" then d else s

/-- Python f-string rendering of an optional integer: `None` renders as
`"None"`, an integer as its decimal form. Used for derived set ids. -/
def fmtOptInt : Option Int → String
  | none => "None"
  | some n => toString n

/-- A raw workout summary/detail object as returned by the Hevy API
(`w` in `mappers.to_workout_row`): every field may be absent. -/
structure RawSet where
  index : Option Int
  type : Option String
  weight_kg : Option Int
  reps : Option Int
  distance_meters : Option Int
  duration_seconds : Option Int
  rpe : Option Int
  custom_metric : Option Int
deriving DecidableEq

structure RawExercise where
  index : Option Int
  title : Option String
  sets : Option (List RawSet)
deriving DecidableEq

/-- The workout detail payload consumed by `to_set_rows`
(`workout_detail.get("exercises") or []`). -/
structure WorkoutDetail where
  exercises : Option (List RawExercise)
deriving DecidableEq

structure RawWorkout where
  id : Option String
  title : Option String
  description : Option String
  notes : Option String
  start_time : Option String
  end_time : Option String
  created_at : Option String
  updated_at : Option String
deriving DecidableEq

/-- Output dict of `mappers.to_workout_row`. -/
structure WorkoutRow where
  id : Option String
  title : String
  notes : String
  started_at : Option String
  ended_at : Option String
  created_at : Option String
  updated_at : Option String
deriving DecidableEq

/-- `mappers.to_workout_row`: normalize a Hevy workout into the DB row shape.
`title or "Workout"`, `description or notes or ""`; `str(id)` is the identity
on an already-string id. -/
def to_workout_row (w : RawWorkout) : WorkoutRow :=
  { id := w.id
    title := orStr w.title "Workout"
    notes := orStr w.description (orStr w.notes "")
    started_at := w.start_time
    ended_at := w.end_time
    created_at := w.created_at
    updated_at := w.updated_at }

/-- A row of the `sets` table (also the dict shape built by `to_set_rows`). -/
structure SetRow where
  id : String
  workout_id : String
  exercise_index : Option Int
  set_index : Option Int
  exercise_title : String
  type : Option String
  weight_kg : Option Int
  reps : Option Int
  distance_meters : Option Int
  duration_seconds : Option Int
  rpe : Option Int
  custom_metric : Option Int
deriving DecidableEq

/-- The derived set id `f"{workout_id}:{ex_idx}:{s_idx}"`. -/
def mkSetId (workout_id : String) (ex_idx s_idx : Option Int) : String :=
  workout_id ++ ":" ++ fmtOptInt ex_idx ++ ":" ++ fmtOptInt s_idx

/-- `mappers.to_set_rows`: flatten the detail's exercises/sets into DB rows. -/
def to_set_rows (workout_id : String) (d : WorkoutDetail) : List SetRow :=
  (d.exercises.getD []).flatMap fun ex =>
    (ex.sets.getD []).map fun s =>
      { id := mkSetId workout_id ex.index s.index
        workout_id := workout_id
        exercise_index := ex.index
        set_index := s.index
        exercise_title := orStr ex.title ""
        type := s.type
        weight_kg := s.weight_kg
        reps := s.reps
        distance_meters := s.distance_meters
        duration_seconds := s.duration_seconds
        rpe := s.rpe
        custom_metric := s.custom_metric }

/-- A stored row of the `workouts` table (`id` is the text primary key,
hence non-null). -/
structure DbWorkout where
  id : String
  title : String
  notes : String
  started_at : Option String
  ended_at : Option String
  created_at : Option String
  updated_at : Option String
deriving DecidableEq

/-- A stored row of the `exercises` table (keyed by unique
`exercise_title`; the serial id and `created_at := NOW()` column carry no
information the engine reads and are omitted). -/
structure DbExercise where
  exercise_title : String
  type : Option String
  primary_muscle_group : String
  secondary_muscle_group : String
deriving DecidableEq

/-- The mutable database state: the three tables the sync core touches. -/
structure Store where
  workouts : List DbWorkout
  sets : List SetRow
  exercises : List DbExercise
deriving DecidableEq

/-- `repo._normalize_workout_params`: re-apply the `or` fallbacks so every
SQL bind parameter has a value. -/
structure WorkoutParams where
  id : Option String
  title : String
  notes : String
  started_at : Option String
  ended_at : Option String
  created_at : Option String
  updated_at : Option String
deriving DecidableEq

def normalize_workout_params (wr : WorkoutRow) : WorkoutParams :=
  { id := wr.id
    title := orStr (some wr.title) "Workout"
    notes := orStr (some wr.notes) ""
    started_at := wr.started_at
    ended_at := wr.ended_at
    created_at := wr.created_at
    updated_at := wr.updated_at }

def paramsToDbWorkout (i : String) (p : WorkoutParams) : DbWorkout :=
  { id := i, title := p.title, notes := p.notes
    started_at := p.started_at, ended_at := p.ended_at
    created_at := p.created_at, updated_at := p.updated_at }

/-- `repo.upsert_workout`: `INSERT ... ON CONFLICT (id) DO UPDATE SET` all
non-id columns. A null id violates the primary-key constraint and raises
(`Except.error`). -/
def upsert_workout (s : Store) (wr : WorkoutRow) : Except Unit Store :=
  let p := normalize_workout_params wr
  match p.id with
  | none => .error ()
  | some i =>
    if s.workouts.any (fun r => r.id = i) then
      .ok { s with workouts :=
        s.workouts.map fun r => if r.id = i then paramsToDbWorkout i p else r }
    else
      .ok { s with workouts := s.workouts ++ [paramsToDbWorkout i p] }

/-- One row of the executemany `INSERT ... ON CONFLICT (id) DO NOTHING`:
a row whose id already exists (including one inserted earlier in the same
statement) is skipped. -/
def insertSetsStep (tbl : List SetRow) (r : SetRow) : List SetRow :=
  if tbl.any (fun x => x.id = r.id) then tbl else tbl ++ [r]

/-- `repo.insert_sets_bulk`: bulk insert-if-absent; returns `len(rows)`
(the number of rows submitted, not the number actually inserted). -/
def insert_sets_bulk (s : Store) (rows : List SetRow) : Store × Nat :=
  ({ s with sets := rows.foldl insertSetsStep s.sets }, rows.length)

/-- Payload of `GET /workouts` as consumed by `sync.py`
(`raw.get("workouts", [])`). -/
structure WPage where
  workouts : Option (List RawWorkout)
deriving DecidableEq

/-- A raw exercise-template object from `GET /exercise_templates`. -/
structure ExTemplate where
  title : Option String
  type : Option String
  primary_muscle_group : Option String
  secondary_muscle_groups : List String
deriving DecidableEq

/-- Payload of `GET /exercise_templates`
(`response.get('exercise_templates', [])`). -/
structure TPage where
  exercise_templates : Option (List ExTemplate)
deriving DecidableEq

/-- The remote Hevy API (`hevy_client.py`): three deterministic endpoints,
each of which may raise a transport error (`Except.error`). -/
structure Remote where
  list_workouts : Nat → Nat → Except Unit WPage
  get_workout : String → Except Unit WorkoutDetail
  list_exercise_templates : Nat → Nat → Except Unit TPage

/-- One HTTP request issued to the remote API, for tracing which pages the
pagination loops actually request. -/
inductive Req where
  | listW (page pageSize : Nat)
  | getW (id : String)
  | listT (page pageSize : Nat)
deriving DecidableEq

/-- Injected database failures. Each flag makes the corresponding store
operation raise where the Python code executes it; `noFaults` is the
fault-free run. -/
structure DbFaults where
  failGetDbDeletion : Bool
  failReadLocal : Bool
  failDeleteSets : Bool
  failDeleteWorkouts : Bool
  failGetDbPage : Nat → Bool
  failUpsert : String → Bool
  failInsertSets : String → Bool
  failExGetDb : Bool
  failExDelete : Bool
  failExInsert : String → Bool

def noFaults : DbFaults :=
  { failGetDbDeletion := false, failReadLocal := false
    failDeleteSets := false, failDeleteWorkouts := false
    failGetDbPage := fun _ => false, failUpsert := fun _ => false
    failInsertSets := fun _ => false, failExGetDb := false
    failExDelete := false, failExInsert := fun _ => false }

/-- Python truthiness of `w.get("id")` in the enumeration loop: only a
present, non-empty id is collected. -/
def truthyId (w : RawWorkout) : Option String :=
  match w.id with
  | none => none
  | some s => if s = "" then none else some s

/-- Insertion into a Python `set` modelled as a duplicate-free list in
insertion order. -/
def setInsert (l : List String) (x : String) : List String :=
  if x ∈ l then l else l ++ [x]

/-- `hevy_workout_ids.update(page_ids)` for one page's workouts. -/
def addPageIds (acc : List String) (ws : List RawWorkout) : List String :=
  ws.foldl (fun a w => match truthyId w with
    | some s => setInsert a s
    | none => a) acc

/-- Deduplicate a list into set-as-list form (insertion order). -/
def listToSet (l : List String) : List String :=
  l.foldl setInsert []

/-- Step 1 of `sync_first_page`: the deletion-detection enumeration loop.
Requests pages of size 10 from `current_page` upward; stops on a transport
error, an empty page, or a short page, collecting truthy ids as it goes.
Returns the collected id set and the requests issued. -/
def collectLoop (rm : Remote) : Nat → Nat → List String → List Req →
    List String × List Req
  | 0, _, acc, trace => (acc, trace)
  | fuel + 1, current_page, acc, trace =>
    let trace := trace ++ [Req.listW current_page 10]
    match rm.list_workouts current_page 10 with
    | .error _ => (acc, trace)
    | .ok raw =>
      let workouts := raw.workouts.getD []
      if workouts.isEmpty then (acc, trace)
      else
        let acc := addPageIds acc workouts
        if workouts.length < 10 then (acc, trace)
        else collectLoop rm fuel (current_page + 1) acc trace

/-- The remote workout-id set one invocation of `sync_first_page`
enumerates (step 1). -/
def syncHevyIds (rm : Remote) (fuel : Nat) : List String :=
  (collectLoop rm fuel 1 [] []).1

/-- The local id set `{row[0] for row in db.exec("SELECT id FROM workouts")}`. -/
def localIdSet (s : Store) : List String :=
  listToSet (s.workouts.map (·.id))

/-- `workouts_to_delete = local_workout_ids - hevy_workout_ids`. -/
def workoutsToDelete (s : Store) (hevyIds : List String) : List String :=
  (localIdSet s).filter (fun i => i ∉ hevyIds)

/-- Step 2 of `sync_first_page`: delete sets whose `workout_id` is in the
difference, then the workouts themselves (executed only when the difference
is non-empty). -/
def applyDeletion (s : Store) (toDelete : List String) : Store :=
  if toDelete.isEmpty then s
  else
    { s with
      sets := s.sets.filter (fun r => r.workout_id ∉ toDelete)
      workouts := s.workouts.filter (fun w => w.id ∉ toDelete) }

/-- Running state of the upsert pass (step 3): the store, the
`seen`/`upserted`/`sets_total` counters, and the request trace. -/
structure PassState where
  store : Store
  seen : Nat
  upserted : Nat
  sets_total : Nat
  reqs : List Req
deriving DecidableEq

/-- Processing of one workout summary inside the per-page loop of step 3:
map it, skip blank/absent ids, upsert (skip on storage failure), fetch the
detail (skip sets on transport failure), map and insert-if-absent the set
rows (counting the submitted rows), swallowing insert failures. -/
def processWorkout (rm : Remote) (faults : DbFaults) (ps : PassState)
    (w : RawWorkout) : PassState :=
  let ps := { ps with seen := ps.seen + 1 }
  let wr := to_workout_row w
  match wr.id with
  | none => ps
  | some workout_id =>
    if workout_id = "" then ps
    else if faults.failUpsert workout_id then ps
    else
      match upsert_workout ps.store wr with
      | .error _ => ps
      | .ok s1 =>
        let ps := { ps with store := s1, upserted := ps.upserted + 1 }
        let ps := { ps with reqs := ps.reqs ++ [Req.getW workout_id] }
        match rm.get_workout workout_id with
        | .error _ => ps
        | .ok detail =>
          if faults.failInsertSets workout_id then ps
          else
            let set_rows := to_set_rows workout_id detail
            if set_rows.isEmpty then ps
            else
              let (s2, n) := insert_sets_bulk ps.store set_rows
              { ps with store := s2, sets_total := ps.sets_total + n }

/-- Step 3 of `sync_first_page`: re-paginate from page 1 with page size 10
and upsert every workout. The loop stops on a transport error, an empty
page, or a failure to open the per-page transaction — but *not* on a short
non-empty page. -/
def upsertLoop (rm : Remote) (faults : DbFaults) :
    Nat → Nat → PassState → PassState
  | 0, _, ps => ps
  | fuel + 1, current_page, ps =>
    let ps := { ps with reqs := ps.reqs ++ [Req.listW current_page 10] }
    match rm.list_workouts current_page 10 with
    | .error _ => ps
    | .ok raw =>
      let workouts := raw.workouts.getD []
      if workouts.isEmpty then ps
      else if faults.failGetDbPage current_page then ps
      else upsertLoop rm faults fuel (current_page + 1)
        (workouts.foldl (processWorkout rm faults) ps)

/-- Result dict of `exercise_sync.sync_exercise_templates`. -/
structure ExResult where
  status : String
  message : String
  imported_count : Nat
  total_templates : Nat
deriving DecidableEq

/-- The template-accumulation loop of `sync_exercise_templates`: pages of
size 100 from page 1, stopping on a transport error, an empty page, or the
defensive `page > 100` cap. -/
def templatesLoop (rm : Remote) :
    Nat → Nat → List ExTemplate → List Req → List ExTemplate × List Req
  | 0, _, acc, trace => (acc, trace)
  | fuel + 1, page, acc, trace =>
    let trace := trace ++ [Req.listT page 100]
    match rm.list_exercise_templates page 100 with
    | .error _ => (acc, trace)
    | .ok resp =>
      let templates := resp.exercise_templates.getD []
      if templates.isEmpty then (acc, trace)
      else
        let acc := acc ++ templates
        if page + 1 > 100 then (acc, trace)
        else templatesLoop rm fuel (page + 1) acc trace

/-- The `exercises` row built from one template. -/
def templateToRow (title : String) (t : ExTemplate) : DbExercise :=
  { exercise_title := title
    type := t.type
    primary_muscle_group := t.primary_muscle_group.getD ""
    secondary_muscle_group := String.intercalate ", " t.secondary_muscle_groups }

/-- `template.get('title', '').strip()`. -/
def templateTitle (t : ExTemplate) : String :=
  (t.title.getD "").trim

/-- Upsert-by-title (`ON CONFLICT (exercise_title) DO UPDATE`). -/
def upsertExercise (tbl : List DbExercise) (row : DbExercise) : List DbExercise :=
  if tbl.any (fun r => r.exercise_title = row.exercise_title) then
    tbl.map fun r => if r.exercise_title = row.exercise_title then row else r
  else tbl ++ [row]

/-- The import loop over the accumulated templates, starting from the
emptied table: skip blank titles, upsert the rest, counting imports. -/
def importTemplates (ts : List ExTemplate) : List DbExercise × Nat :=
  ts.foldl (fun (acc : List DbExercise × Nat) t =>
    let title := templateTitle t
    if title = "" then acc
    else (upsertExercise acc.1 (templateToRow title t), acc.2 + 1)) ([], 0)

/-- Whether any store operation inside the import transaction raises; an
exception there rolls the transaction back and is caught by the function's
outer `try`, producing an error result. -/
def exDbFailure (faults : DbFaults) (ts : List ExTemplate) : Bool :=
  faults.failExGetDb || faults.failExDelete ||
    ts.any (fun t => templateTitle t ≠ "" && faults.failExInsert (templateTitle t))

/-- `exercise_sync.sync_exercise_templates`: accumulate all templates; with
zero templates report a structured error; otherwise truncate and reload the
`exercises` table inside one transaction (rolled back, and the whole call
degraded to an error result, on any database failure). -/
def sync_exercise_templates (rm : Remote) (faults : DbFaults) (fuel : Nat)
    (s : Store) : ExResult × Store × List Req :=
  let (all_templates, trace) := templatesLoop rm fuel 1 [] []
  if all_templates.isEmpty then
    ({ status := "error"
       message := "No exercise templates found in Hevy API"
       imported_count := 0, total_templates := 0 }, s, trace)
  else if exDbFailure faults all_templates then
    ({ status := "error"
       message := "Sync failed: database error"
       imported_count := 0, total_templates := 0 }, s, trace)
  else
    let (tbl, imported) := importTemplates all_templates
    ({ status := "success"
       message := "Successfully imported exercise templates from Hevy API"
       imported_count := imported
       total_templates := all_templates.length },
     { s with exercises := tbl }, trace)

/-- The summary dict returned by `sync_first_page` (the `exercise_sync`
sub-dict is flattened into `ex_*` fields). -/
structure Summary where
  sync_type : String
  workouts_seen : Nat
  workouts_upserted : Nat
  sets_inserted : Nat
  workouts_deleted : Nat
  total_hevy_workouts : Nat
  total_local_before : Nat
  ex_status : String
  ex_imported_count : Nat
  ex_total_templates : Nat
  ex_message : String
deriving DecidableEq

/-- Outcome of one invocation: either a summary and the final store, or a
propagated exception; plus the trace of remote requests issued. -/
structure SyncRun where
  outcome : Except Unit (Summary × Store)
  reqs : List Req

/-- `sync.sync_first_page(page, page_size)`: the unified sync entrypoint.
The `page` and `page_size` parameters are accepted and never read. Steps:
(1) enumerate remote ids, (2) reconcile deletions — the only region whose
database failures are *not* caught and therefore propagate, (3) re-paginate
and upsert workouts and sets, (4) sync the exercise catalog, then assemble
the summary. -/
def sync_first_page (rm : Remote) (faults : DbFaults) (fuel : Nat)
    (_page : Nat) (_page_size : Nat) (s0 : Store) : SyncRun :=
  let (hevyIds, reqs1) := collectLoop rm fuel 1 [] []
  if faults.failGetDbDeletion || faults.failReadLocal then
    { outcome := .error (), reqs := reqs1 }
  else
    let localIds := localIdSet s0
    let toDelete := workoutsToDelete s0 hevyIds
    if ¬ toDelete.isEmpty ∧ (faults.failDeleteSets || faults.failDeleteWorkouts) then
      { outcome := .error (), reqs := reqs1 }
    else
      let s1 := applyDeletion s0 toDelete
      let workouts_deleted := if toDelete.isEmpty then 0 else toDelete.length
      let ps := upsertLoop rm faults fuel 1
        { store := s1, seen := 0, upserted := 0, sets_total := 0, reqs := reqs1 }
      let (exRes, s2, reqsT) := sync_exercise_templates rm faults fuel ps.store
      { outcome := .ok
          ({ sync_type := "unified_with_deletion"
             workouts_seen := ps.seen
             workouts_upserted := ps.upserted
             sets_inserted := ps.sets_total
             workouts_deleted := workouts_deleted
             total_hevy_workouts := hevyIds.length
             total_local_before := localIds.length
             ex_status := exRes.status
             ex_imported_count := exRes.imported_count
             ex_total_templates := exRes.total_templates
             ex_message := exRes.message }, s2)
        reqs := ps.reqs ++ reqsT }

/-! ## Fixture remotes and concrete scenario data -/

/-- The page the Hevy API serves for a fixed finite collection `ws`:
1-based pages of at most `size` items (the contract of §4.1: a short page
signals the end). -/
def chunkPage (ws : List RawWorkout) (page size : Nat) : List RawWorkout :=
  (ws.drop ((page - 1) * size)).take size

/-- A well-behaved, unchanged remote: `list_workouts` serves chunked pages
of the fixed collection `ws`; details and templates are arbitrary
deterministic endpoints. -/
def fixtureRemote (ws : List RawWorkout)
    (det : String → Except Unit WorkoutDetail)
    (tpl : Nat → Nat → Except Unit TPage) : Remote :=
  { list_workouts := fun p s => .ok ⟨some (chunkPage ws p s)⟩
    get_workout := det
    list_exercise_templates := tpl }

def emptyStore : Store := { workouts := [], sets := [], exercises := [] }

/-- A minimal raw workout with the given id. -/
def mkRaw (i : String) : RawWorkout :=
  { id := some i, title := some ("Workout " ++ i), description := none
    notes := none, start_time := none, end_time := none
    created_at := none, updated_at := none }

/-- A detail fixture: one exercise (index 0) with one set (index 0). -/
def detOneSet : String → Except Unit WorkoutDetail := fun _ =>
  .ok ⟨some [{ index := some 0, title := some "Bench"
               sets := some [{ index := some 0, type := some "normal"
                               weight_kg := some 100, reps := some 5
                               distance_meters := none, duration_seconds := none
                               rpe := none, custom_metric := none }] }]⟩

/-- A template endpoint that always fails (irrelevant to workout claims). -/
def noTemplates : Nat → Nat → Except Unit TPage := fun _ _ => .error ()

/-- The remote of the deletion scenario: workouts `B`, `C`, `D`. -/
def fixtureBCD : Remote :=
  fixtureRemote [mkRaw "B", mkRaw "C", mkRaw "D"] detOneSet noTemplates

/-- A pre-existing local workout row. -/
def dbW (i : String) : DbWorkout :=
  { id := i, title := "old title", notes := "", started_at := none
    ended_at := none, created_at := none, updated_at := none }

/-- A pre-existing local set row belonging to workout `wid`. -/
def oldSetRow (wid : String) : SetRow :=
  { id := mkSetId wid (some 0) (some 0), workout_id := wid
    exercise_index := some 0, set_index := some 0, exercise_title := "Bench"
    type := some "normal", weight_kg := some 80, reps := some 8
    distance_meters := none, duration_seconds := none, rpe := none
    custom_metric := none }

/-- The local store of the deletion scenario: workouts `A`, `B`, `C`, with a
set row for `A` and one for `B`. -/
def storeABC : Store :=
  { workouts := [dbW "A", dbW "B", dbW "C"]
    sets := [oldSetRow "A", oldSetRow "B"]
    exercises := [] }

/-! ## Decomposition of the upsert pass

`processWorkout` and `upsertLoop` thread a single `PassState`; the lemmas
below separate the store effect (which depends on the incoming store) from
the counters and the request trace (which do not — no control-flow decision
in step 3 of `sync_first_page` reads the database). -/

/-- Store effect of processing one workout summary. -/
def pwS (rm : Remote) (faults : DbFaults) (w : RawWorkout) (s : Store) : Store :=
  let wr := to_workout_row w
  match wr.id with
  | none => s
  | some workout_id =>
    if workout_id = "" then s
    else if faults.failUpsert workout_id then s
    else
      match upsert_workout s wr with
      | .error _ => s
      | .ok s1 =>
        match rm.get_workout workout_id with
        | .error _ => s1
        | .ok detail =>
          if faults.failInsertSets workout_id then s1
          else
            let set_rows := to_set_rows workout_id detail
            if set_rows.isEmpty then s1
            else (insert_sets_bulk s1 set_rows).1

/-- Increment of the `upserted` counter contributed by one workout. -/
def pwUpsInc (faults : DbFaults) (w : RawWorkout) : Nat :=
  match truthyId w with
  | none => 0
  | some i => if faults.failUpsert i then 0 else 1

/-- Increment of the `sets_total` counter contributed by one workout. -/
def pwSetsInc (rm : Remote) (faults : DbFaults) (w : RawWorkout) : Nat :=
  match truthyId w with
  | none => 0
  | some i =>
    if faults.failUpsert i then 0
    else
      match rm.get_workout i with
      | .error _ => 0
      | .ok detail =>
        if faults.failInsertSets i then 0
        else
          let set_rows := to_set_rows i detail
          if set_rows.isEmpty then 0 else set_rows.length

/-- Requests issued while processing one workout. -/
def pwReqs (faults : DbFaults) (w : RawWorkout) : List Req :=
  match truthyId w with
  | none => []
  | some i => if faults.failUpsert i then [] else [Req.getW i]

/-- Store effect of one page of the upsert pass. -/
def pwStores (rm : Remote) (faults : DbFaults) (ws : List RawWorkout)
    (s : Store) : Store :=
  ws.foldl (fun s w => pwS rm faults w s) s

/-- Store effect of the whole upsert pass. -/
def upsStore (rm : Remote) (faults : DbFaults) :
    Nat → Nat → Store → Store
  | 0, _, s => s
  | fuel + 1, current_page, s =>
    match rm.list_workouts current_page 10 with
    | .error _ => s
    | .ok raw =>
      let workouts := raw.workouts.getD []
      if workouts.isEmpty then s
      else if faults.failGetDbPage current_page then s
      else upsStore rm faults fuel (current_page + 1) (pwStores rm faults workouts s)

/-- Counter increments (`seen`, `upserted`, `sets_total`) of the whole
upsert pass; independent of the store. -/
def loopCnt (rm : Remote) (faults : DbFaults) :
    Nat → Nat → Nat × Nat × Nat
  | 0, _ => (0, 0, 0)
  | fuel + 1, current_page =>
    match rm.list_workouts current_page 10 with
    | .error _ => (0, 0, 0)
    | .ok raw =>
      let workouts := raw.workouts.getD []
      if workouts.isEmpty then (0, 0, 0)
      else if faults.failGetDbPage current_page then (0, 0, 0)
      else
        let rest := loopCnt rm faults fuel (current_page + 1)
        (workouts.length + rest.1,
         (workouts.map (pwUpsInc faults)).sum + rest.2.1,
         (workouts.map (pwSetsInc rm faults)).sum + rest.2.2)

/-- Requests issued by the whole upsert pass; independent of the store. -/
def loopReqs (rm : Remote) (faults : DbFaults) :
    Nat → Nat → List Req
  | 0, _ => []
  | fuel + 1, current_page =>
    match rm.list_workouts current_page 10 with
    | .error _ => [Req.listW current_page 10]
    | .ok raw =>
      let workouts := raw.workouts.getD []
      if workouts.isEmpty then [Req.listW current_page 10]
      else if faults.failGetDbPage current_page then [Req.listW current_page 10]
      else Req.listW current_page 10 :: (workouts.flatMap (pwReqs faults) ++
        loopReqs rm faults fuel (current_page + 1))

/-- Requests issued by the enumeration loop (step 1); independent of the
accumulated id set. -/
def collectReqs (rm : Remote) : Nat → Nat → List Req
  | 0, _ => []
  | fuel + 1, current_page =>
    match rm.list_workouts current_page 10 with
    | .error _ => [Req.listW current_page 10]
    | .ok raw =>
      let workouts := raw.workouts.getD []
      if workouts.isEmpty then [Req.listW current_page 10]
      else if workouts.length < 10 then [Req.listW current_page 10]
      else Req.listW current_page 10 :: collectReqs rm fuel (current_page + 1)

/-- The store produced by a successful `upsert_workout` with non-null id. -/
def upsertApply (s : Store) (wr : WorkoutRow) (i : String) : Store :=
  let p := normalize_workout_params wr
  if s.workouts.any (fun r => r.id = i) then
    { s with workouts :=
      s.workouts.map fun r => if r.id = i then paramsToDbWorkout i p else r }
  else
    { s with workouts := s.workouts ++ [paramsToDbWorkout i p] }

theorem to_workout_row_id (w : RawWorkout) : (to_workout_row w).id = w.id := rfl

theorem upsert_workout_eq (s : Store) (wr : WorkoutRow) (i : String)
    (h : wr.id = some i) :
    upsert_workout s wr = .ok (upsertApply s wr i) := by
  have hid : (normalize_workout_params wr).id = some i := by
    simp [normalize_workout_params, h]
  simp only [upsert_workout, upsertApply, hid]
  split <;> rfl

theorem processWorkout_eq (rm : Remote) (faults : DbFaults) (ps : PassState)
    (w : RawWorkout) :
    processWorkout rm faults ps w =
      { store := pwS rm faults w ps.store
        seen := ps.seen + 1
        upserted := ps.upserted + pwUpsInc faults w
        sets_total := ps.sets_total + pwSetsInc rm faults w
        reqs := ps.reqs ++ pwReqs faults w } := by
  cases hw : w.id with
  | none =>
    simp [processWorkout, pwS, pwUpsInc, pwSetsInc, pwReqs, truthyId,
      to_workout_row_id, hw]
  | some i =>
    by_cases hi : i = ""
    · simp [processWorkout, pwS, pwUpsInc, pwSetsInc, pwReqs, truthyId,
        to_workout_row_id, hw, hi]
    · have hup := upsert_workout_eq ps.store (to_workout_row w) i
        (by rw [to_workout_row_id, hw])
      by_cases hf : faults.failUpsert i
      · simp [processWorkout, pwS, pwUpsInc, pwSetsInc, pwReqs, truthyId,
          to_workout_row_id, hw, hi, hf]
      · cases hd : rm.get_workout i with
        | error e =>
          simp [processWorkout, pwS, pwUpsInc, pwSetsInc, pwReqs, truthyId,
            to_workout_row_id, hw, hi, hf, hup, hd]
        | ok detail =>
          by_cases hfi : faults.failInsertSets i
          · simp [processWorkout, pwS, pwUpsInc, pwSetsInc, pwReqs, truthyId,
              to_workout_row_id, hw, hi, hf, hup, hd, hfi]
          · by_cases hrows : (to_set_rows i detail).isEmpty
            · simp [processWorkout, pwS, pwUpsInc, pwSetsInc, pwReqs, truthyId,
                to_workout_row_id, hw, hi, hf, hup, hd, hfi, hrows]
            · simp [processWorkout, pwS, pwUpsInc, pwSetsInc, pwReqs, truthyId,
                to_workout_row_id, hw, hi, hf, hup, hd, hfi, hrows,
                insert_sets_bulk]

theorem foldl_processWorkout_eq (rm : Remote) (faults : DbFaults)
    (ws : List RawWorkout) (ps : PassState) :
    ws.foldl (processWorkout rm faults) ps =
      { store := pwStores rm faults ws ps.store
        seen := ps.seen + ws.length
        upserted := ps.upserted + (ws.map (pwUpsInc faults)).sum
        sets_total := ps.sets_total + (ws.map (pwSetsInc rm faults)).sum
        reqs := ps.reqs ++ ws.flatMap (pwReqs faults) } := by
  induction ws generalizing ps with
  | nil => simp [pwStores]
  | cons w ws ih =>
    rw [List.foldl_cons, processWorkout_eq, ih]
    simp [pwStores, Nat.add_assoc, Nat.add_comm, Nat.add_left_comm]

theorem upsertLoop_eq (rm : Remote) (faults : DbFaults) (fuel : Nat)
    (page : Nat) (ps : PassState) :
    upsertLoop rm faults fuel page ps =
      { store := upsStore rm faults fuel page ps.store
        seen := ps.seen + (loopCnt rm faults fuel page).1
        upserted := ps.upserted + (loopCnt rm faults fuel page).2.1
        sets_total := ps.sets_total + (loopCnt rm faults fuel page).2.2
        reqs := ps.reqs ++ loopReqs rm faults fuel page } := by
  induction fuel generalizing page ps with
  | zero => simp [upsertLoop, upsStore, loopCnt, loopReqs]
  | succ fuel ih =>
    unfold upsertLoop upsStore loopCnt loopReqs
    cases h : rm.list_workouts page 10 with
    | error e => simp
    | ok raw =>
      by_cases he : (raw.workouts.getD []).isEmpty
      · simp [he]
      · by_cases hfp : faults.failGetDbPage page
        · simp [he, hfp]
        · simp only [he, hfp, if_false, Bool.false_eq_true, ite_false]
          rw [foldl_processWorkout_eq, ih]
          simp [Nat.add_assoc]

theorem collectLoop_trace (rm : Remote) (fuel page : Nat)
    (acc : List String) (trace : List Req) :
    (collectLoop rm fuel page acc trace).2 = trace ++ collectReqs rm fuel page := by
  induction fuel generalizing page acc trace with
  | zero => simp [collectLoop, collectReqs]
  | succ fuel ih =>
    unfold collectLoop collectReqs
    cases h : rm.list_workouts page 10 with
    | error e => simp
    | ok raw =>
      by_cases he : (raw.workouts.getD []).isEmpty
      · simp [he]
      · by_cases hs : (raw.workouts.getD []).length < 10
        · simp [he, hs]
        · simp [he, hs, ih]

/-! ## Composed form of one fault-free-reconciliation invocation -/

/-- The id set step 2 deletes: `local − remote` for this invocation. -/
def syncToDelete (rm : Remote) (fuel : Nat) (s0 : Store) : List String :=
  workoutsToDelete s0 (syncHevyIds rm fuel)

/-- The pass state after step 3 of the invocation. -/
def syncPassState (rm : Remote) (faults : DbFaults) (fuel : Nat)
    (s0 : Store) : PassState :=
  upsertLoop rm faults fuel 1
    { store := applyDeletion s0 (syncToDelete rm fuel s0)
      seen := 0, upserted := 0, sets_total := 0
      reqs := (collectLoop rm fuel 1 [] []).2 }

/-- The catalog-sync outcome of step 4 of the invocation. -/
def syncExOutcome (rm : Remote) (faults : DbFaults) (fuel : Nat)
    (s0 : Store) : ExResult × Store × List Req :=
  sync_exercise_templates rm faults fuel (syncPassState rm faults fuel s0).store

/-- The summary assembled by a run whose deletion pass did not raise. -/
def syncOkSummary (rm : Remote) (faults : DbFaults) (fuel : Nat)
    (s0 : Store) : Summary :=
  { sync_type := "unified_with_deletion"
    workouts_seen := (syncPassState rm faults fuel s0).seen
    workouts_upserted := (syncPassState rm faults fuel s0).upserted
    sets_inserted := (syncPassState rm faults fuel s0).sets_total
    workouts_deleted :=
      if (syncToDelete rm fuel s0).isEmpty then 0
      else (syncToDelete rm fuel s0).length
    total_hevy_workouts := (syncHevyIds rm fuel).length
    total_local_before := (localIdSet s0).length
    ex_status := (syncExOutcome rm faults fuel s0).1.status
    ex_imported_count := (syncExOutcome rm faults fuel s0).1.imported_count
    ex_total_templates := (syncExOutcome rm faults fuel s0).1.total_templates
    ex_message := (syncExOutcome rm faults fuel s0).1.message }

theorem sync_first_page_eq (rm : Remote) (faults : DbFaults)
    (fuel p psz : Nat) (s0 : Store)
    (h1 : faults.failGetDbDeletion = false) (h2 : faults.failReadLocal = false)
    (h3 : faults.failDeleteSets = false) (h4 : faults.failDeleteWorkouts = false) :
    sync_first_page rm faults fuel p psz s0 =
      { outcome := .ok (syncOkSummary rm faults fuel s0,
          (syncExOutcome rm faults fuel s0).2.1)
        reqs := (syncPassState rm faults fuel s0).reqs ++
          (syncExOutcome rm faults fuel s0).2.2 } := by
  unfold sync_first_page
  rw [show collectLoop rm fuel 1 [] [] =
    ((collectLoop rm fuel 1 [] []).1, (collectLoop rm fuel 1 [] []).2) from rfl]
  simp only [h1, h2, h3, h4, Bool.or_self, Bool.false_eq_true, if_false,
    Bool.or_false, false_and, and_false, ite_false]
  rw [show ∀ st, sync_exercise_templates rm faults fuel st =
    ((sync_exercise_templates rm faults fuel st).1,
     (sync_exercise_templates rm faults fuel st).2.1,
     (sync_exercise_templates rm faults fuel st).2.2) from fun _ => rfl]
  simp only [syncOkSummary, syncExOutcome, syncPassState, syncToDelete,
    syncHevyIds]

/-! ## List-level facts about the two tables -/

/-- Lookup of a workout row by primary key. -/
def findW (l : List DbWorkout) (i : String) : Option DbWorkout :=
  l.find? (fun r => r.id = i)

/-- The workout row an upserted workout ends up as. -/
def dbRowOf (w : RawWorkout) (i : String) : DbWorkout :=
  paramsToDbWorkout i (normalize_workout_params (to_workout_row w))

/-- The workouts-table effect of `upsertApply`, at the list level. -/
def upsW (l : List DbWorkout) (i : String) (row : DbWorkout) : List DbWorkout :=
  if l.any (fun r => r.id = i) then
    l.map fun r => if r.id = i then row else r
  else l ++ [row]

theorem upsertApply_workouts (s : Store) (wr : WorkoutRow) (i : String) :
    (upsertApply s wr i).workouts =
      upsW s.workouts i (paramsToDbWorkout i (normalize_workout_params wr)) := by
  unfold upsertApply upsW
  split <;> rfl

theorem upsertApply_sets (s : Store) (wr : WorkoutRow) (i : String) :
    (upsertApply s wr i).sets = s.sets := by
  unfold upsertApply
  split <;> rfl

theorem upsertApply_exercises (s : Store) (wr : WorkoutRow) (i : String) :
    (upsertApply s wr i).exercises = s.exercises := by
  unfold upsertApply
  split <;> rfl

theorem insertSets_foldl_prefix (rows : List SetRow) (tbl : List SetRow) :
    ∃ extra, rows.foldl insertSetsStep tbl = tbl ++ extra := by
  induction rows generalizing tbl with
  | nil => exact ⟨[], by simp⟩
  | cons r rows ih =>
    rw [List.foldl_cons]
    by_cases hc : (tbl.any fun x => x.id = r.id) = true
    · rw [show insertSetsStep tbl r = tbl from by
        unfold insertSetsStep; rw [if_pos hc]]
      exact ih tbl
    · rw [show insertSetsStep tbl r = tbl ++ [r] from by
        unfold insertSetsStep; rw [if_neg hc]]
      obtain ⟨extra, hx⟩ := ih (tbl ++ [r])
      exact ⟨r :: extra, by rw [hx, List.append_assoc]; rfl⟩

theorem insertSets_foldl_of_all_present (rows : List SetRow) (tbl : List SetRow)
    (h : ∀ r ∈ rows, tbl.any (fun x => x.id = r.id) = true) :
    rows.foldl insertSetsStep tbl = tbl := by
  induction rows with
  | nil => rfl
  | cons r rows ih =>
    rw [List.foldl_cons]
    unfold insertSetsStep
    rw [if_pos (h r (by simp))]
    exact ih fun r hr => h r (by simp [hr])

theorem insertSets_present (rows : List SetRow) (tbl : List SetRow)
    (r : SetRow) (hr : r ∈ rows) :
    (rows.foldl insertSetsStep tbl).any (fun x => x.id = r.id) = true := by
  induction rows generalizing tbl with
  | nil => cases hr
  | cons a rows ih =>
    rw [List.foldl_cons]
    rcases List.mem_cons.mp hr with h | h
    · subst h
      have hstep : (insertSetsStep tbl r).any (fun x => x.id = r.id) = true := by
        unfold insertSetsStep
        split
        · assumption
        · simp
      obtain ⟨extra, hx⟩ := insertSets_foldl_prefix rows (insertSetsStep tbl r)
      rw [hx, List.any_append, hstep]
      simp
    · exact ih (insertSetsStep tbl a) h

theorem any_id_false_forall {l : List DbWorkout} {i : String}
    (h : ¬ (l.any fun r => r.id = i) = true) : ∀ r ∈ l, r.id ≠ i := by
  intro r hr
  have hf : (l.any fun r => r.id = i) = false := Bool.eq_false_iff.mpr h
  have := List.any_eq_false.mp hf r hr
  simpa using this

theorem find?_updW_self (l : List DbWorkout) (i : String) (row : DbWorkout)
    (hrow : row.id = i)
    (hany : (l.any fun r => r.id = i) = true) :
    (l.map fun r => if r.id = i then row else r).find?
      (fun r => r.id = i) = some row := by
  induction l with
  | nil => simp at hany
  | cons a l ih =>
    by_cases ha : a.id = i
    · simp only [List.map_cons, if_pos ha]
      exact List.find?_cons_of_pos _ (by simp [hrow])
    · simp only [List.map_cons, if_neg ha]
      rw [List.find?_cons_of_neg _ (by simp [ha])]
      exact ih (by simpa [ha] using hany)

theorem find?_updW_ne (l : List DbWorkout) (i j : String) (row : DbWorkout)
    (hrow : row.id = i) (hne : j ≠ i) :
    (l.map fun r => if r.id = i then row else r).find?
      (fun r => r.id = j) = l.find? (fun r => r.id = j) := by
  have hji : ¬ row.id = j := by rw [hrow]; exact fun h => hne h.symm
  induction l with
  | nil => rfl
  | cons a l ih =>
    by_cases ha : a.id = i
    · have haj : ¬ a.id = j := by rw [ha]; exact fun h => hne h.symm
      simp only [List.map_cons, if_pos ha]
      rw [List.find?_cons_of_neg _ (by simp [hji]),
        List.find?_cons_of_neg _ (by simp [haj])]
      exact ih
    · simp only [List.map_cons, if_neg ha]
      by_cases haj : a.id = j
      · rw [List.find?_cons_of_pos _ (by simp [haj]),
          List.find?_cons_of_pos _ (by simp [haj])]
      · rw [List.find?_cons_of_neg _ (by simp [haj]),
          List.find?_cons_of_neg _ (by simp [haj])]
        exact ih

theorem ids_updW (l : List DbWorkout) (i : String) (row : DbWorkout)
    (hrow : row.id = i) :
    (l.map fun r => if r.id = i then row else r).map (fun r => r.id) =
      l.map (fun r => r.id) := by
  induction l with
  | nil => rfl
  | cons a l ih =>
    by_cases ha : a.id = i
    · rw [List.map_cons, List.map_cons, if_pos ha, ih, hrow, List.map_cons, ha]
    · simp only [List.map_cons, if_neg ha, ih]

theorem updW_identity (l : List DbWorkout) (i : String) (row : DbWorkout)
    (h : ∀ r ∈ l, r.id = i → r = row) :
    (l.map fun r => if r.id = i then row else r) = l := by
  induction l with
  | nil => rfl
  | cons a l ih =>
    have htail := ih (fun r hr hri => h r (List.mem_cons_of_mem _ hr) hri)
    by_cases ha : a.id = i
    · simp only [List.map_cons, if_pos ha, htail]
      rw [h a (List.mem_cons_self _ _) ha]
    · simp only [List.map_cons, if_neg ha, htail]

theorem upsW_find?_self (l : List DbWorkout) (i : String) (row : DbWorkout)
    (hrow : row.id = i) : findW (upsW l i row) i = some row := by
  unfold upsW findW
  by_cases hany : (l.any fun r => r.id = i) = true
  · rw [if_pos hany]
    exact find?_updW_self l i row hrow hany
  · rw [if_neg hany, List.find?_append]
    have hnone : l.find? (fun r => r.id = i) = none := by
      rw [List.find?_eq_none]
      intro x hx
      simpa using any_id_false_forall hany x hx
    simp [hnone, hrow]

theorem upsW_find?_ne (l : List DbWorkout) (i j : String) (row : DbWorkout)
    (hrow : row.id = i) (hne : j ≠ i) :
    findW (upsW l i row) j = findW l j := by
  unfold upsW findW
  by_cases hany : (l.any fun r => r.id = i) = true
  · rw [if_pos hany]
    exact find?_updW_ne l i j row hrow hne
  · rw [if_neg hany, List.find?_append]
    have hone : List.find? (fun r => r.id = j) [row] = none := by
      have hji : ¬ row.id = j := by rw [hrow]; exact fun h => hne h.symm
      rw [List.find?_cons_of_neg _ (by simp [hji]), List.find?_nil]
    rw [hone]
    cases l.find? (fun r => r.id = j) <;> rfl

theorem upsW_ids (l : List DbWorkout) (i : String) (row : DbWorkout)
    (hrow : row.id = i) :
    (upsW l i row).map (fun r => r.id) = l.map (fun r => r.id) ∨
      ((upsW l i row).map (fun r => r.id) = l.map (fun r => r.id) ++ [i] ∧
        i ∉ l.map (fun r => r.id)) := by
  unfold upsW
  by_cases hany : (l.any fun r => r.id = i) = true
  · rw [if_pos hany]
    exact Or.inl (ids_updW l i row hrow)
  · rw [if_neg hany]
    refine Or.inr ⟨by simp [hrow], ?_⟩
    intro hmem
    obtain ⟨r, hr, hid⟩ := List.mem_map.mp hmem
    exact any_id_false_forall hany r hr hid

theorem upsW_identity (l : List DbWorkout) (i : String) (row : DbWorkout)
    (hany : (l.any fun r => r.id = i) = true)
    (h : ∀ r ∈ l, r.id = i → r = row) :
    upsW l i row = l := by
  unfold upsW
  rw [if_pos hany]
  exact updW_identity l i row h

theorem find?_nodup_unique (l : List DbWorkout) (i : String) (v : DbWorkout)
    (hnd : (l.map (fun r => r.id)).Nodup)
    (hfind : findW l i = some v) :
    ∀ r ∈ l, r.id = i → r = v := by
  induction l with
  | nil => intro r hr; cases hr
  | cons a l ih =>
    intro r hr hri
    rw [List.map_cons, List.nodup_cons] at hnd
    by_cases ha : a.id = i
    · unfold findW at hfind
      rw [List.find?_cons_of_pos _ (by simp [ha])] at hfind
      rcases List.mem_cons.mp hr with h | h
      · rw [h]; exact (Option.some.injEq _ _).mp hfind
      · exfalso
        apply hnd.1
        rw [ha, ← hri]
        exact List.mem_map_of_mem _ h
    · unfold findW at hfind
      rw [List.find?_cons_of_neg _ (by simp [ha])] at hfind
      rcases List.mem_cons.mp hr with h | h
      · exact absurd (by rw [← h]; exact hri) ha
      · exact ih hnd.2 hfind r h hri

theorem upsW_nodup (l : List DbWorkout) (i : String) (row : DbWorkout)
    (hrow : row.id = i) (hnd : (l.map (fun r => r.id)).Nodup) :
    ((upsW l i row).map (fun r => r.id)).Nodup := by
  rcases upsW_ids l i row hrow with h | ⟨h, hni⟩
  · rw [h]; exact hnd
  · rw [h]
    simp only [List.nodup_append, List.nodup_cons]
    exact ⟨hnd, by simp, by simpa using fun hi => hni hi⟩

/-! ## Facts about the store effect of one workout -/

theorem Store.ext' {s t : Store} (hw : s.workouts = t.workouts)
    (hs : s.sets = t.sets) (he : s.exercises = t.exercises) : s = t := by
  cases s; cases t; simp_all

theorem truthyId_some {w : RawWorkout} {i : String}
    (h : truthyId w = some i) : w.id = some i ∧ ¬ i = "" := by
  cases hw : w.id with
  | none => simp [truthyId, hw] at h
  | some s =>
    simp only [truthyId, hw] at h
    by_cases hs : s = ""
    · rw [if_pos hs] at h; cases h
    · rw [if_neg hs] at h
      obtain rfl := (Option.some.injEq _ _).mp h
      exact ⟨rfl, hs⟩

theorem insert_sets_bulk_workouts (s : Store) (rows : List SetRow) :
    (insert_sets_bulk s rows).1.workouts = s.workouts := rfl

theorem insert_sets_bulk_exercises (s : Store) (rows : List SetRow) :
    (insert_sets_bulk s rows).1.exercises = s.exercises := rfl

theorem insert_sets_bulk_sets (s : Store) (rows : List SetRow) :
    (insert_sets_bulk s rows).1.sets = rows.foldl insertSetsStep s.sets := rfl

theorem pwS_of_none (rm : Remote) (faults : DbFaults) (w : RawWorkout)
    (s : Store) (h : truthyId w = none) : pwS rm faults w s = s := by
  cases hw : w.id with
  | none => simp [pwS, to_workout_row_id, hw]
  | some i =>
    simp only [truthyId, hw] at h
    by_cases hi : i = ""
    · simp [pwS, to_workout_row_id, hw, hi]
    · rw [if_neg hi] at h; cases h

theorem pwS_of_fault (rm : Remote) (faults : DbFaults) (w : RawWorkout)
    (s : Store) (i : String) (h : truthyId w = some i)
    (hf : faults.failUpsert i = true) : pwS rm faults w s = s := by
  obtain ⟨hw, hi⟩ := truthyId_some h
  simp [pwS, to_workout_row_id, hw, hi, hf]

theorem pwS_workouts_of_valid (rm : Remote) (faults : DbFaults)
    (w : RawWorkout) (s : Store) (i : String) (h : truthyId w = some i)
    (hf : faults.failUpsert i = false) :
    (pwS rm faults w s).workouts = upsW s.workouts i (dbRowOf w i) := by
  obtain ⟨hw, hi⟩ := truthyId_some h
  have hup := upsert_workout_eq s (to_workout_row w) i
    (by rw [to_workout_row_id, hw])
  have hres : (upsertApply s (to_workout_row w) i).workouts =
      upsW s.workouts i (dbRowOf w i) :=
    upsertApply_workouts s (to_workout_row w) i
  cases hd : rm.get_workout i with
  | error e => simp [pwS, to_workout_row_id, hw, hi, hf, hup, hd, hres]
  | ok detail =>
    by_cases hfi : faults.failInsertSets i
    · simp [pwS, to_workout_row_id, hw, hi, hf, hup, hd, hfi, hres]
    · by_cases hrows : (to_set_rows i detail).isEmpty
      · simp [pwS, to_workout_row_id, hw, hi, hf, hup, hd, hfi, hrows, hres]
      · simp [pwS, to_workout_row_id, hw, hi, hf, hup, hd, hfi, hrows,
          insert_sets_bulk_workouts, hres]

theorem pwS_sets_prefix (rm : Remote) (faults : DbFaults) (w : RawWorkout)
    (s : Store) : ∃ extra, (pwS rm faults w s).sets = s.sets ++ extra := by
  cases ht : truthyId w with
  | none => exact ⟨[], by rw [pwS_of_none rm faults w s ht]; simp⟩
  | some i =>
    cases hf : faults.failUpsert i with
    | true => exact ⟨[], by rw [pwS_of_fault rm faults w s i ht hf]; simp⟩
    | false =>
      obtain ⟨hw, hi⟩ := truthyId_some ht
      have hup := upsert_workout_eq s (to_workout_row w) i
        (by rw [to_workout_row_id, hw])
      have hse : (upsertApply s (to_workout_row w) i).sets = s.sets :=
        upsertApply_sets s (to_workout_row w) i
      cases hd : rm.get_workout i with
      | error e =>
        exact ⟨[], by simp [pwS, to_workout_row_id, hw, hi, hf, hup, hd, hse]⟩
      | ok detail =>
        by_cases hfi : faults.failInsertSets i
        · exact ⟨[], by
            simp [pwS, to_workout_row_id, hw, hi, hf, hup, hd, hfi, hse]⟩
        · by_cases hrows : (to_set_rows i detail).isEmpty
          · exact ⟨[], by
              simp [pwS, to_workout_row_id, hw, hi, hf, hup, hd, hfi, hrows, hse]⟩
          · obtain ⟨extra, hx⟩ := insertSets_foldl_prefix (to_set_rows i detail)
              (upsertApply s (to_workout_row w) i).sets
            refine ⟨extra, ?_⟩
            simp only [pwS, to_workout_row_id, hw, hi, hf, hup, hd, hfi, hrows,
              Bool.false_eq_true, if_false, ite_false]
            rw [insert_sets_bulk_sets, hx, hse]

theorem pwS_exercises (rm : Remote) (faults : DbFaults) (w : RawWorkout)
    (s : Store) : (pwS rm faults w s).exercises = s.exercises := by
  cases ht : truthyId w with
  | none => rw [pwS_of_none rm faults w s ht]
  | some i =>
    cases hf : faults.failUpsert i with
    | true => rw [pwS_of_fault rm faults w s i ht hf]
    | false =>
      obtain ⟨hw, hi⟩ := truthyId_some ht
      have hup := upsert_workout_eq s (to_workout_row w) i
        (by rw [to_workout_row_id, hw])
      have hex : (upsertApply s (to_workout_row w) i).exercises = s.exercises :=
        upsertApply_exercises s (to_workout_row w) i
      cases hd : rm.get_workout i with
      | error e => simp [pwS, to_workout_row_id, hw, hi, hf, hup, hd, hex]
      | ok detail =>
        by_cases hfi : faults.failInsertSets i
        · simp [pwS, to_workout_row_id, hw, hi, hf, hup, hd, hfi, hex]
        · by_cases hrows : (to_set_rows i detail).isEmpty
          · simp [pwS, to_workout_row_id, hw, hi, hf, hup, hd, hfi, hrows, hex]
          · simp [pwS, to_workout_row_id, hw, hi, hf, hup, hd, hfi, hrows,
              insert_sets_bulk_exercises, hex]

theorem pwS_inserts_sets (rm : Remote) (faults : DbFaults) (w : RawWorkout)
    (s : Store) (i : String) (detail : WorkoutDetail)
    (h : truthyId w = some i) (hf : faults.failUpsert i = false)
    (hd : rm.get_workout i = .ok detail) (hfi : faults.failInsertSets i = false) :
    ∀ r ∈ to_set_rows i detail,
      ((pwS rm faults w s).sets.any fun x => x.id = r.id) = true := by
  intro r hr
  obtain ⟨hw, hi⟩ := truthyId_some h
  have hup := upsert_workout_eq s (to_workout_row w) i
    (by rw [to_workout_row_id, hw])
  have hrows : ¬ (to_set_rows i detail).isEmpty = true := by
    intro he
    rw [List.isEmpty_iff.mp he] at hr
    cases hr
  simp only [pwS, to_workout_row_id, hw, hi, hf, hup, hd, hfi,
    Bool.false_eq_true, if_false, ite_false, hrows]
  rw [insert_sets_bulk_sets]
  exact insertSets_present _ _ r hr

theorem pwS_findW_other (rm : Remote) (faults : DbFaults) (w : RawWorkout)
    (s : Store) (i : String)
    (h : ∀ j, truthyId w = some j → j ≠ i) :
    findW (pwS rm faults w s).workouts i = findW s.workouts i := by
  cases ht : truthyId w with
  | none => rw [pwS_of_none rm faults w s ht]
  | some j =>
    cases hf : faults.failUpsert j with
    | true => rw [pwS_of_fault rm faults w s j ht hf]
    | false =>
      rw [pwS_workouts_of_valid rm faults w s j ht hf]
      exact upsW_find?_ne s.workouts j i (dbRowOf w j) rfl (h j ht).symm

theorem pwS_findW_self (rm : Remote) (faults : DbFaults) (w : RawWorkout)
    (s : Store) (i : String) (h : truthyId w = some i)
    (hf : faults.failUpsert i = false) :
    findW (pwS rm faults w s).workouts i = some (dbRowOf w i) := by
  rw [pwS_workouts_of_valid rm faults w s i h hf]
  exact upsW_find?_self s.workouts i (dbRowOf w i) rfl

theorem pwS_nodup (rm : Remote) (faults : DbFaults) (w : RawWorkout)
    (s : Store) (hnd : (s.workouts.map (fun r => r.id)).Nodup) :
    ((pwS rm faults w s).workouts.map (fun r => r.id)).Nodup := by
  cases ht : truthyId w with
  | none => rw [pwS_of_none rm faults w s ht]; exact hnd
  | some i =>
    cases hf : faults.failUpsert i with
    | true => rw [pwS_of_fault rm faults w s i ht hf]; exact hnd
    | false =>
      rw [pwS_workouts_of_valid rm faults w s i ht hf]
      exact upsW_nodup s.workouts i (dbRowOf w i) rfl hnd

theorem pwS_ids_subset (rm : Remote) (faults : DbFaults) (w : RawWorkout)
    (s : Store) (j : String)
    (hj : j ∈ (pwS rm faults w s).workouts.map (fun r => r.id)) :
    j ∈ s.workouts.map (fun r => r.id) ∨ truthyId w = some j := by
  cases ht : truthyId w with
  | none => rw [pwS_of_none rm faults w s ht] at hj; exact Or.inl hj
  | some i =>
    cases hf : faults.failUpsert i with
    | true => rw [pwS_of_fault rm faults w s i ht hf] at hj; exact Or.inl hj
    | false =>
      rw [pwS_workouts_of_valid rm faults w s i ht hf] at hj
      rcases upsW_ids s.workouts i (dbRowOf w i) rfl with he | ⟨he, _⟩
      · rw [he] at hj; exact Or.inl hj
      · rw [he] at hj
        rcases List.mem_append.mp hj with hj | hj
        · exact Or.inl hj
        · have hji : j = i := List.mem_singleton.mp hj
          rw [hji]
          exact Or.inr rfl

theorem pwS_sets_any_mono (rm : Remote) (faults : DbFaults) (w : RawWorkout)
    (s : Store) (p : SetRow → Bool) (hp : (s.sets.any p) = true) :
    ((pwS rm faults w s).sets.any p) = true := by
  obtain ⟨extra, hx⟩ := pwS_sets_prefix rm faults w s
  rw [hx, List.any_append, hp]
  rfl

theorem pwS_sets_mem_mono (rm : Remote) (faults : DbFaults) (w : RawWorkout)
    (s : Store) (r : SetRow) (hr : r ∈ s.sets) :
    r ∈ (pwS rm faults w s).sets := by
  obtain ⟨extra, hx⟩ := pwS_sets_prefix rm faults w s
  rw [hx]
  exact List.mem_append_left _ hr

theorem pwS_noop (rm : Remote) (w : RawWorkout) (s : Store)
    (hnd : (s.workouts.map (fun r => r.id)).Nodup)
    (hcase : truthyId w = none ∨
      ∃ i, truthyId w = some i ∧ findW s.workouts i = some (dbRowOf w i) ∧
        ∀ detail, rm.get_workout i = .ok detail →
          ∀ r ∈ to_set_rows i detail, (s.sets.any fun x => x.id = r.id) = true) :
    pwS rm noFaults w s = s := by
  rcases hcase with h | ⟨i, ht, hfind, hsets⟩
  · exact pwS_of_none rm noFaults w s h
  · obtain ⟨hw, hi⟩ := truthyId_some ht
    have hup := upsert_workout_eq s (to_workout_row w) i
      (by rw [to_workout_row_id, hw])
    have hany : (s.workouts.any fun r => r.id = i) = true := by
      rw [List.any_eq_true]
      refine ⟨dbRowOf w i, List.mem_of_find?_eq_some hfind, ?_⟩
      simpa using List.find?_some hfind
    have huniq : ∀ r ∈ s.workouts, r.id = i → r = dbRowOf w i :=
      find?_nodup_unique s.workouts i (dbRowOf w i) hnd hfind
    have happ : upsertApply s (to_workout_row w) i = s := by
      refine Store.ext' ?_ (upsertApply_sets _ _ _) (upsertApply_exercises _ _ _)
      rw [upsertApply_workouts]
      exact upsW_identity s.workouts i (dbRowOf w i) hany huniq
    cases hd : rm.get_workout i with
    | error e => simp [pwS, to_workout_row_id, hw, hi, noFaults, hup, hd, happ]
    | ok detail =>
      by_cases hrows : (to_set_rows i detail).isEmpty
      · simp [pwS, to_workout_row_id, hw, hi, noFaults, hup, hd, hrows, happ]
      · have hfold : (to_set_rows i detail).foldl insertSetsStep s.sets = s.sets :=
          insertSets_foldl_of_all_present _ _ (hsets detail hd)
        simp only [pwS, to_workout_row_id, hw, hi, noFaults, hup, hd, hrows,
          Bool.false_eq_true, if_false, ite_false]
        rw [happ]
        refine Store.ext' (insert_sets_bulk_workouts _ _) ?_
          (insert_sets_bulk_exercises _ _)
        rw [insert_sets_bulk_sets]
        exact hfold

/-! ## Facts about one page and the whole upsert pass -/

theorem pwStores_exercises (rm : Remote) (faults : DbFaults)
    (L : List RawWorkout) (s : Store) :
    (pwStores rm faults L s).exercises = s.exercises := by
  induction L generalizing s with
  | nil => rfl
  | cons w L ih =>
    unfold pwStores
    rw [List.foldl_cons]
    exact (ih (pwS rm faults w s)).trans (pwS_exercises rm faults w s)

theorem pwStores_sets_prefix (rm : Remote) (faults : DbFaults)
    (L : List RawWorkout) (s : Store) :
    ∃ extra, (pwStores rm faults L s).sets = s.sets ++ extra := by
  induction L generalizing s with
  | nil => exact ⟨[], by simp [pwStores]⟩
  | cons w L ih =>
    obtain ⟨e1, h1⟩ := pwS_sets_prefix rm faults w s
    obtain ⟨e2, h2⟩ := ih (pwS rm faults w s)
    refine ⟨e1 ++ e2, ?_⟩
    unfold pwStores
    rw [List.foldl_cons]
    unfold pwStores at h2
    rw [h2, h1, List.append_assoc]

theorem pwStores_sets_any_mono (rm : Remote) (faults : DbFaults)
    (L : List RawWorkout) (s : Store) (p : SetRow → Bool)
    (hp : (s.sets.any p) = true) :
    ((pwStores rm faults L s).sets.any p) = true := by
  obtain ⟨extra, hx⟩ := pwStores_sets_prefix rm faults L s
  rw [hx, List.any_append, hp]
  rfl

theorem pwStores_sets_mem_mono (rm : Remote) (faults : DbFaults)
    (L : List RawWorkout) (s : Store) (r : SetRow) (hr : r ∈ s.sets) :
    r ∈ (pwStores rm faults L s).sets := by
  obtain ⟨extra, hx⟩ := pwStores_sets_prefix rm faults L s
  rw [hx]
  exact List.mem_append_left _ hr

theorem pwStores_nodup (rm : Remote) (faults : DbFaults)
    (L : List RawWorkout) (s : Store)
    (hnd : (s.workouts.map (fun r => r.id)).Nodup) :
    ((pwStores rm faults L s).workouts.map (fun r => r.id)).Nodup := by
  induction L generalizing s with
  | nil => exact hnd
  | cons w L ih =>
    unfold pwStores
    rw [List.foldl_cons]
    exact ih (pwS rm faults w s) (pwS_nodup rm faults w s hnd)

theorem pwStores_ids_subset (rm : Remote) (faults : DbFaults)
    (L : List RawWorkout) (s : Store) (j : String)
    (hj : j ∈ (pwStores rm faults L s).workouts.map (fun r => r.id)) :
    j ∈ s.workouts.map (fun r => r.id) ∨ ∃ w ∈ L, truthyId w = some j := by
  induction L generalizing s with
  | nil => exact Or.inl hj
  | cons w L ih =>
    unfold pwStores at hj
    rw [List.foldl_cons] at hj
    rcases ih (pwS rm faults w s) hj with h | ⟨w', hw', ht'⟩
    · rcases pwS_ids_subset rm faults w s j h with h' | h'
      · exact Or.inl h'
      · exact Or.inr ⟨w, List.mem_cons_self _ _, h'⟩
    · exact Or.inr ⟨w', List.mem_cons_of_mem _ hw', ht'⟩

theorem pwStores_findW_frozen (rm : Remote) (faults : DbFaults)
    (L : List RawWorkout) (s : Store) (i : String)
    (h : ∀ w ∈ L, truthyId w ≠ some i) :
    findW (pwStores rm faults L s).workouts i = findW s.workouts i := by
  induction L generalizing s with
  | nil => rfl
  | cons w L ih =>
    unfold pwStores
    rw [List.foldl_cons]
    have hstep := pwS_findW_other rm faults w s i
      (fun j hj => by
        intro hji
        exact h w (List.mem_cons_self _ _) (by rw [hji] at hj; exact hj))
    exact (ih (pwS rm faults w s)
      (fun w' hw' => h w' (List.mem_cons_of_mem _ hw'))).trans hstep

theorem pwStores_findW_self (rm : Remote) (faults : DbFaults)
    (L : List RawWorkout) (s : Store) (w : RawWorkout) (i : String)
    (hnd : (L.filterMap truthyId).Nodup)
    (hw : w ∈ L) (ht : truthyId w = some i)
    (hf : faults.failUpsert i = false) :
    findW (pwStores rm faults L s).workouts i = some (dbRowOf w i) := by
  induction L generalizing s with
  | nil => cases hw
  | cons a L ih =>
    unfold pwStores
    rw [List.foldl_cons]
    rcases List.mem_cons.mp hw with h | h
    · subst h
      rw [List.filterMap_cons, ht] at hnd
      rw [List.nodup_cons] at hnd
      have hrest : ∀ w' ∈ L, truthyId w' ≠ some i := by
        intro w' hw' hti
        exact hnd.1 (List.mem_filterMap.mpr ⟨w', hw', hti⟩)
      have := pwStores_findW_frozen rm faults L (pwS rm faults w s) i hrest
      unfold pwStores at this
      rw [this]
      exact pwS_findW_self rm faults w s i ht hf
    · have hndL : (L.filterMap truthyId).Nodup := by
        rw [List.filterMap_cons] at hnd
        cases hta : truthyId a with
        | none => rw [hta] at hnd; exact hnd
        | some j => rw [hta] at hnd; exact (List.nodup_cons.mp hnd).2
      exact ih (pwS rm faults a s) hndL h

theorem pwStores_set_present (rm : Remote) (faults : DbFaults)
    (L : List RawWorkout) (s : Store) (w : RawWorkout) (i : String)
    (detail : WorkoutDetail)
    (hw : w ∈ L) (ht : truthyId w = some i)
    (hf : faults.failUpsert i = false)
    (hd : rm.get_workout i = .ok detail)
    (hfi : faults.failInsertSets i = false) :
    ∀ r ∈ to_set_rows i detail,
      ((pwStores rm faults L s).sets.any fun x => x.id = r.id) = true := by
  intro r hr
  induction L generalizing s with
  | nil => cases hw
  | cons a L ih =>
    unfold pwStores
    rw [List.foldl_cons]
    rcases List.mem_cons.mp hw with h | h
    · subst h
      exact pwStores_sets_any_mono rm faults L (pwS rm faults w s) _
        (pwS_inserts_sets rm faults w s i detail ht hf hd hfi r hr)
    · exact ih (pwS rm faults a s) h

theorem pwStores_noop (rm : Remote) (L : List RawWorkout) (s : Store)
    (hnd : (s.workouts.map (fun r => r.id)).Nodup)
    (hL : ∀ w ∈ L, truthyId w = none ∨
      ∃ i, truthyId w = some i ∧ findW s.workouts i = some (dbRowOf w i) ∧
        ∀ detail, rm.get_workout i = .ok detail →
          ∀ r ∈ to_set_rows i detail, (s.sets.any fun x => x.id = r.id) = true) :
    pwStores rm noFaults L s = s := by
  induction L with
  | nil => rfl
  | cons w L ih =>
    unfold pwStores
    rw [List.foldl_cons, pwS_noop rm w s hnd (hL w (List.mem_cons_self _ _))]
    exact ih (fun w' hw' => hL w' (List.mem_cons_of_mem _ hw'))

theorem upsStore_sets_prefix (rm : Remote) (faults : DbFaults)
    (fuel : Nat) : ∀ (page : Nat) (s : Store),
    ∃ extra, (upsStore rm faults fuel page s).sets = s.sets ++ extra := by
  induction fuel with
  | zero => exact fun page s => ⟨[], by simp [upsStore]⟩
  | succ fuel ih =>
    intro page s
    unfold upsStore
    cases h : rm.list_workouts page 10 with
    | error e => exact ⟨[], by simp⟩
    | ok raw =>
      by_cases he : (raw.workouts.getD []).isEmpty
      · exact ⟨[], by simp [he]⟩
      · by_cases hfp : faults.failGetDbPage page
        · exact ⟨[], by simp [he, hfp]⟩
        · simp only [he, hfp, Bool.false_eq_true, if_false, ite_false]
          obtain ⟨e1, h1⟩ :=
            pwStores_sets_prefix rm faults (raw.workouts.getD []) s
          obtain ⟨e2, h2⟩ :=
            ih (page + 1) (pwStores rm faults (raw.workouts.getD []) s)
          exact ⟨e1 ++ e2, by rw [h2, h1, List.append_assoc]⟩

theorem upsStore_sets_mem_mono (rm : Remote) (faults : DbFaults)
    (fuel page : Nat) (s : Store) (r : SetRow) (hr : r ∈ s.sets) :
    r ∈ (upsStore rm faults fuel page s).sets := by
  obtain ⟨extra, hx⟩ := upsStore_sets_prefix rm faults fuel page s
  rw [hx]
  exact List.mem_append_left _ hr

theorem upsStore_exercises (rm : Remote) (faults : DbFaults)
    (fuel : Nat) : ∀ (page : Nat) (s : Store),
    (upsStore rm faults fuel page s).exercises = s.exercises := by
  induction fuel with
  | zero => exact fun page s => rfl
  | succ fuel ih =>
    intro page s
    unfold upsStore
    cases h : rm.list_workouts page 10 with
    | error e => rfl
    | ok raw =>
      by_cases he : (raw.workouts.getD []).isEmpty
      · simp [he]
      · by_cases hfp : faults.failGetDbPage page
        · simp [he, hfp]
        · simp only [he, hfp, Bool.false_eq_true, if_false, ite_false]
          exact (ih (page + 1) _).trans
            (pwStores_exercises rm faults (raw.workouts.getD []) s)

/-! ## Membership in the set-as-list representation -/

theorem mem_setInsert (acc : List String) (x j : String) :
    j ∈ setInsert acc x ↔ j ∈ acc ∨ j = x := by
  unfold setInsert
  by_cases hx : x ∈ acc
  · rw [if_pos hx]
    constructor
    · exact Or.inl
    · rintro (h | rfl)
      · exact h
      · exact hx
  · rw [if_neg hx, List.mem_append, List.mem_singleton]

theorem mem_foldl_setInsert (l : List String) :
    ∀ (acc : List String) (j : String),
    j ∈ l.foldl setInsert acc ↔ j ∈ acc ∨ j ∈ l := by
  induction l with
  | nil => simp
  | cons x l ih =>
    intro acc j
    rw [List.foldl_cons, ih, mem_setInsert, List.mem_cons]
    tauto

theorem mem_listToSet (l : List String) (j : String) :
    j ∈ listToSet l ↔ j ∈ l := by
  unfold listToSet
  rw [mem_foldl_setInsert]
  simp

theorem mem_localIdSet (s : Store) (j : String) :
    j ∈ localIdSet s ↔ j ∈ s.workouts.map (fun r => r.id) := by
  unfold localIdSet
  rw [mem_listToSet]

theorem addPageIds_append (acc : List String) (l1 l2 : List RawWorkout) :
    addPageIds acc (l1 ++ l2) = addPageIds (addPageIds acc l1) l2 := by
  unfold addPageIds
  rw [List.foldl_append]

theorem addPageIds_eq_foldl (l : List RawWorkout) : ∀ acc,
    addPageIds acc l = (l.filterMap truthyId).foldl setInsert acc := by
  induction l with
  | nil => intro acc; rfl
  | cons w l ih =>
    intro acc
    rw [List.filterMap_cons]
    cases ht : truthyId w with
    | none =>
      unfold addPageIds
      rw [List.foldl_cons, ht]
      exact ih acc
    | some i =>
      unfold addPageIds
      rw [List.foldl_cons, ht, List.foldl_cons]
      exact ih (setInsert acc i)

theorem mem_addPageIds (l : List RawWorkout) (acc : List String) (j : String) :
    j ∈ addPageIds acc l ↔ j ∈ acc ∨ ∃ w ∈ l, truthyId w = some j := by
  rw [addPageIds_eq_foldl, mem_foldl_setInsert, List.mem_filterMap]

/-! ## The pagination loops over a chunked fixture remote -/

theorem fixture_list_workouts (ws : List RawWorkout)
    (det : String → Except Unit WorkoutDetail)
    (tpl : Nat → Nat → Except Unit TPage) (p sz : Nat) :
    (fixtureRemote ws det tpl).list_workouts p sz =
      .ok ⟨some (chunkPage ws p sz)⟩ := rfl

theorem chunk_step (ws : List RawWorkout) (j : Nat) (hj : 1 ≤ j) :
    ws.drop (j * 10) = (ws.drop ((j - 1) * 10)).drop 10 := by
  rw [List.drop_drop]
  congr 1
  omega

theorem collectLoop_fixture (ws : List RawWorkout)
    (det : String → Except Unit WorkoutDetail)
    (tpl : Nat → Nat → Except Unit TPage) :
    ∀ (fuel j : Nat) (acc : List String) (trace : List Req),
    1 ≤ j → (ws.drop ((j - 1) * 10)).length + 1 ≤ fuel →
    (collectLoop (fixtureRemote ws det tpl) fuel j acc trace).1 =
      addPageIds acc (ws.drop ((j - 1) * 10)) := by
  intro fuel
  induction fuel with
  | zero => intro j acc trace hj hfuel; omega
  | succ fuel ih =>
    intro j acc trace hj hfuel
    unfold collectLoop
    rw [fixture_list_workouts]
    simp only [Option.getD_some]
    by_cases hre : ws.drop ((j - 1) * 10) = []
    · have hch : chunkPage ws j 10 = [] := by
        unfold chunkPage
        rw [hre, List.take_nil]
      rw [hre]
      simp [hch, addPageIds]
    · have hchunk : chunkPage ws j 10 = (ws.drop ((j - 1) * 10)).take 10 := rfl
      have hneL : ¬ chunkPage ws j 10 = [] := by
        rw [hchunk]
        intro h
        rcases List.take_eq_nil_iff.mp h with h10 | hnil
        · exact absurd h10 (by omega)
        · exact hre hnil
      have hne : ¬ (chunkPage ws j 10).isEmpty = true := by
        rw [List.isEmpty_iff]
        exact hneL
      by_cases hlen : (ws.drop ((j - 1) * 10)).length < 10
      · have hch : chunkPage ws j 10 = ws.drop ((j - 1) * 10) := by
          rw [hchunk]
          exact List.take_of_length_le (by omega)
        have hlt : (chunkPage ws j 10).length < 10 := by rw [hch]; exact hlen
        simp only [Option.getD_some, hne, Bool.false_eq_true, if_false,
          ite_false, hlt, if_true, ite_true]
        rw [hch]
      · have hlen10 : (chunkPage ws j 10).length = 10 := by
          rw [hchunk, List.length_take]
          omega
        have hnlt : ¬ (chunkPage ws j 10).length < 10 := by omega
        simp only [Option.getD_some, hne, Bool.false_eq_true, if_false,
          ite_false, hnlt]
        have harith : ws.drop ((j + 1 - 1) * 10) = (ws.drop ((j - 1) * 10)).drop 10 := by
          have := chunk_step ws j hj
          simpa using this
        rw [ih (j + 1) (addPageIds acc (chunkPage ws j 10))
          (trace ++ [Req.listW j 10]) (by omega)
          (by rw [harith, List.length_drop]; omega)]
        rw [harith, hchunk, ← addPageIds_append, List.take_append_drop]

theorem pwStores_append (rm : Remote) (faults : DbFaults)
    (l1 l2 : List RawWorkout) (s : Store) :
    pwStores rm faults (l1 ++ l2) s =
      pwStores rm faults l2 (pwStores rm faults l1 s) := by
  unfold pwStores
  rw [List.foldl_append]

theorem upsStore_fixture (ws : List RawWorkout)
    (det : String → Except Unit WorkoutDetail)
    (tpl : Nat → Nat → Except Unit TPage) (faults : DbFaults)
    (hpf : ∀ p, faults.failGetDbPage p = false) :
    ∀ (fuel j : Nat) (s : Store),
    1 ≤ j → (ws.drop ((j - 1) * 10)).length + 1 ≤ fuel →
    upsStore (fixtureRemote ws det tpl) faults fuel j s =
      pwStores (fixtureRemote ws det tpl) faults (ws.drop ((j - 1) * 10)) s := by
  intro fuel
  induction fuel with
  | zero => intro j s hj hfuel; omega
  | succ fuel ih =>
    intro j s hj hfuel
    unfold upsStore
    rw [fixture_list_workouts]
    by_cases hre : ws.drop ((j - 1) * 10) = []
    · have hch : chunkPage ws j 10 = [] := by
        unfold chunkPage
        rw [hre, List.take_nil]
      rw [hre]
      simp [hch, pwStores]
    · have hchunk : chunkPage ws j 10 = (ws.drop ((j - 1) * 10)).take 10 := rfl
      have hneL : ¬ chunkPage ws j 10 = [] := by
        rw [hchunk]
        intro h
        rcases List.take_eq_nil_iff.mp h with h10 | hnil
        · exact absurd h10 (by omega)
        · exact hre hnil
      have hne : ¬ (chunkPage ws j 10).isEmpty = true := by
        rw [List.isEmpty_iff]
        exact hneL
      have harith : ws.drop ((j + 1 - 1) * 10) =
          (ws.drop ((j - 1) * 10)).drop 10 := by
        have := chunk_step ws j hj
        simpa using this
      simp only [Option.getD_some, hne, Bool.false_eq_true, if_false,
        ite_false, hpf j]
      by_cases hlen : (ws.drop ((j - 1) * 10)).length < 10
      · have hch : chunkPage ws j 10 = ws.drop ((j - 1) * 10) := by
          rw [hchunk]
          exact List.take_of_length_le (by omega)
        have hnil : ws.drop ((j + 1 - 1) * 10) = [] := by
          rw [harith]
          exact List.drop_eq_nil_of_le (by omega)
        rw [ih (j + 1) _ (by omega) (by
          rw [hnil]
          have h1 := List.length_pos.mpr hre
          simp only [List.length_nil]
          omega)]
        rw [hnil, hch]
        rfl
      · have hlen10 : (chunkPage ws j 10).length = 10 := by
          rw [hchunk, List.length_take]
          omega
        rw [ih (j + 1) _ (by omega)
          (by rw [harith, List.length_drop]; omega)]
        rw [harith, hchunk, ← pwStores_append, List.take_append_drop]

/-! ## Request-trace facts -/

/-- Any `listW` request carries page size 10 (the hard-coded
`fetch_page_size`). -/
def req_size_ok (r : Req) : Prop := ∀ pg sz, r = Req.listW pg sz → sz = 10

theorem collectReqs_size (rm : Remote) (fuel : Nat) : ∀ (page : Nat),
    ∀ r ∈ collectReqs rm fuel page, req_size_ok r := by
  induction fuel with
  | zero => intro page r hr; cases hr
  | succ fuel ih =>
    intro page r hr
    unfold collectReqs at hr
    cases h : rm.list_workouts page 10 with
    | error e =>
      rw [h] at hr
      rw [List.mem_singleton.mp hr]
      intro pg sz heq
      cases heq
      rfl
    | ok raw =>
      rw [h] at hr
      by_cases he : (raw.workouts.getD []).isEmpty
      · simp only [he, if_true, ite_true] at hr
        rw [List.mem_singleton.mp hr]
        intro pg sz heq; cases heq; rfl
      · by_cases hs : (raw.workouts.getD []).length < 10
        · simp only [he, hs, Bool.false_eq_true, if_false, ite_false, if_true,
            ite_true] at hr
          rw [List.mem_singleton.mp hr]
          intro pg sz heq; cases heq; rfl
        · simp only [he, hs, Bool.false_eq_true, if_false, ite_false] at hr
          rcases List.mem_cons.mp hr with h' | h'
          · rw [h']; intro pg sz heq; cases heq; rfl
          · exact ih (page + 1) r h'

theorem pwReqs_size (faults : DbFaults) (w : RawWorkout) :
    ∀ r ∈ pwReqs faults w, req_size_ok r := by
  intro r hr
  unfold pwReqs at hr
  cases ht : truthyId w with
  | none => rw [ht] at hr; cases hr
  | some i =>
    rw [ht] at hr
    by_cases hf : faults.failUpsert i
    · simp only [hf, if_true, ite_true] at hr
      cases hr
    · simp only [hf, Bool.false_eq_true, if_false, ite_false] at hr
      rw [List.mem_singleton.mp hr]
      intro pg sz heq
      cases heq

theorem loopReqs_size (rm : Remote) (faults : DbFaults) (fuel : Nat) :
    ∀ (page : Nat), ∀ r ∈ loopReqs rm faults fuel page, req_size_ok r := by
  induction fuel with
  | zero => intro page r hr; cases hr
  | succ fuel ih =>
    intro page r hr
    unfold loopReqs at hr
    cases h : rm.list_workouts page 10 with
    | error e =>
      rw [h] at hr
      rw [List.mem_singleton.mp hr]
      intro pg sz heq; cases heq; rfl
    | ok raw =>
      rw [h] at hr
      by_cases he : (raw.workouts.getD []).isEmpty
      · simp only [he, if_true, ite_true] at hr
        rw [List.mem_singleton.mp hr]
        intro pg sz heq; cases heq; rfl
      · by_cases hfp : faults.failGetDbPage page
        · simp only [he, hfp, Bool.false_eq_true, if_false, ite_false, if_true,
            ite_true] at hr
          rw [List.mem_singleton.mp hr]
          intro pg sz heq; cases heq; rfl
        · simp only [he, hfp, Bool.false_eq_true, if_false, ite_false] at hr
          rcases List.mem_cons.mp hr with h' | h'
          · rw [h']; intro pg sz heq; cases heq; rfl
          · rcases List.mem_append.mp h' with h'' | h''
            · obtain ⟨w, hw, hw'⟩ := List.mem_flatMap.mp h''
              exact pwReqs_size faults w r hw'
            · exact ih (page + 1) r h''

theorem templatesLoop_trace_pres (rm : Remote) (P : Req → Prop)
    (hP : ∀ pg, P (Req.listT pg 100)) (fuel : Nat) :
    ∀ (page : Nat) (acc : List ExTemplate) (trace : List Req),
    (∀ r ∈ trace, P r) →
    ∀ r ∈ (templatesLoop rm fuel page acc trace).2, P r := by
  induction fuel with
  | zero => intro page acc trace h r hr; exact h r hr
  | succ fuel ih =>
    intro page acc trace h r hr
    have htr : ∀ r ∈ trace ++ [Req.listT page 100], P r := by
      intro r' hr'
      rcases List.mem_append.mp hr' with h' | h'
      · exact h r' h'
      · rw [List.mem_singleton.mp h']; exact hP page
    unfold templatesLoop at hr
    cases hl : rm.list_exercise_templates page 100 with
    | error e => rw [hl] at hr; exact htr r hr
    | ok resp =>
      rw [hl] at hr
      by_cases he : (resp.exercise_templates.getD []).isEmpty
      · simp only [he, if_true, ite_true] at hr
        exact htr r hr
      · by_cases hcap : page + 1 > 100
        · simp only [he, hcap, Bool.false_eq_true, if_false, ite_false,
            if_true, ite_true] at hr
          exact htr r hr
        · simp only [he, hcap, Bool.false_eq_true, if_false, ite_false] at hr
          exact ih (page + 1) _ _ htr r hr

theorem sync_ex_templates_trace (rm : Remote) (faults : DbFaults)
    (fuel : Nat) (s : Store) :
    (sync_exercise_templates rm faults fuel s).2.2 =
      (templatesLoop rm fuel 1 [] []).2 := by
  unfold sync_exercise_templates
  rw [show templatesLoop rm fuel 1 [] [] =
    ((templatesLoop rm fuel 1 [] []).1, (templatesLoop rm fuel 1 [] []).2)
    from rfl]
  split
  rename_i all_templates trace heq
  injection heq with heq1 heq2
  subst heq1
  subst heq2
  split
  · rfl
  · split
    · rfl
    · split
      rfl

theorem sync_first_page_reqs_cases (rm : Remote) (faults : DbFaults)
    (fuel p psz : Nat) (s0 : Store) :
    (sync_first_page rm faults fuel p psz s0).reqs = collectReqs rm fuel 1 ∨
    (sync_first_page rm faults fuel p psz s0).reqs =
      (collectReqs rm fuel 1 ++ loopReqs rm faults fuel 1) ++
        (templatesLoop rm fuel 1 [] []).2 := by
  have htr : (collectLoop rm fuel 1 [] []).2 = collectReqs rm fuel 1 := by
    rw [collectLoop_trace, List.nil_append]
  unfold sync_first_page
  rw [show collectLoop rm fuel 1 [] [] =
    ((collectLoop rm fuel 1 [] []).1, (collectLoop rm fuel 1 [] []).2)
    from rfl]
  by_cases h1 : (faults.failGetDbDeletion || faults.failReadLocal) = true
  · simp only [h1, if_true, ite_true]
    exact Or.inl htr
  · simp only [h1, if_false, ite_false, Bool.false_eq_true]
    by_cases h2 : ¬ (workoutsToDelete s0
        (collectLoop rm fuel 1 [] []).1).isEmpty = true ∧
        (faults.failDeleteSets || faults.failDeleteWorkouts) = true
    · simp only [h2, if_true, ite_true]
      exact Or.inl htr
    · simp only [h2, if_false, ite_false]
      rw [show ∀ st, sync_exercise_templates rm faults fuel st =
        ((sync_exercise_templates rm faults fuel st).1,
         (sync_exercise_templates rm faults fuel st).2.1,
         (sync_exercise_templates rm faults fuel st).2.2) from fun _ => rfl]
      right
      simp only [upsertLoop_eq, sync_ex_templates_trace, htr]

theorem sync_reqs_size (rm : Remote) (faults : DbFaults) (fuel p psz : Nat)
    (s0 : Store) :
    ∀ r ∈ (sync_first_page rm faults fuel p psz s0).reqs, req_size_ok r := by
  intro r hr
  rcases sync_first_page_reqs_cases rm faults fuel p psz s0 with hc | hc
  · rw [hc] at hr
    exact collectReqs_size rm fuel 1 r hr
  · rw [hc] at hr
    rcases List.mem_append.mp hr with hr | hr
    · rcases List.mem_append.mp hr with hr | hr
      · exact collectReqs_size rm fuel 1 r hr
      · exact loopReqs_size rm faults fuel 1 r hr
    · refine templatesLoop_trace_pres rm req_size_ok ?_ fuel 1 [] []
        (by intro r hr; cases hr) r hr
      intro pg pg' sz heq
      cases heq

/-! ## Claim theorems -/

/-- C6: each set row's derived id is the pure deterministic function
`mkSetId` of `(workout_id, exercise_index, set_index)` (so repeated calls of
`to_set_rows` on equal inputs produce identical id strings); every set of
every exercise yields exactly one row even when index fields are absent; and
an absent index is rendered by the null marker `"None"` inside the id. -/
theorem set_id_pure_function (wid : String) (d : WorkoutDetail) :
    (∀ r ∈ to_set_rows wid d,
      r.id = mkSetId wid r.exercise_index r.set_index ∧ r.workout_id = wid) ∧
    (to_set_rows wid d).length =
      ((d.exercises.getD []).map fun e => (e.sets.getD []).length).sum ∧
    (∀ ei si : Option Int,
      mkSetId wid ei si = wid ++ ":" ++ fmtOptInt ei ++ ":" ++ fmtOptInt si) ∧
    fmtOptInt none = "None" := by
  refine ⟨?_, ?_, fun ei si => rfl, rfl⟩
  · intro r hr
    simp only [to_set_rows, List.mem_flatMap, List.mem_map] at hr
    obtain ⟨ex, hex, s, hs, rfl⟩ := hr
    exact ⟨rfl, rfl⟩
  · unfold to_set_rows
    rw [List.length_flatMap]
    congr 1
    apply List.map_congr_left
    intro e he
    simp [Function.comp]

/-- A detail fixture whose only exercise and only set both lack the `index`
field. -/
def detMissingIdx : WorkoutDetail :=
  ⟨some [{ index := none, title := none
           sets := some [{ index := none, type := none, weight_kg := none
                           reps := none, distance_meters := none
                           duration_seconds := none, rpe := none
                           custom_metric := none }] }]⟩

/-- The row `to_set_rows` produces for `detMissingIdx`: the id embeds
`"None"` for both missing indices. -/
def rowMissingIdx : SetRow :=
  { id := "W1:None:None", workout_id := "W1", exercise_index := none
    set_index := none, exercise_title := "", type := none, weight_kg := none
    reps := none, distance_meters := none, duration_seconds := none
    rpe := none, custom_metric := none }

theorem set_id_pure_function_witness :
    rowMissingIdx ∈ to_set_rows "W1" detMissingIdx ∧
      rowMissingIdx.id =
        mkSetId "W1" rowMissingIdx.exercise_index rowMissingIdx.set_index :=
  ⟨by decide,
   ((set_id_pure_function "W1" detMissingIdx).1 rowMissingIdx (by decide)).1⟩

/-- C9: the `page` and `page_size` arguments of `sync_first_page` are never
read — two invocations differing only in them produce identical outcomes
(same store mutations, same summary) and identical request traces — and
every workout-list request the invocation issues uses the hard-coded page
size 10. -/
theorem sync_ignores_page_args (rm : Remote) (faults : DbFaults) (fuel : Nat)
    (p psz p' psz' : Nat) (s0 : Store) :
    sync_first_page rm faults fuel p psz s0 =
      sync_first_page rm faults fuel p' psz' s0 ∧
    (∀ r ∈ (sync_first_page rm faults fuel p psz s0).reqs,
      ∀ pg sz, r = Req.listW pg sz → sz = 10) :=
  ⟨rfl, fun r hr => sync_reqs_size rm faults fuel p psz s0 r hr⟩

theorem sync_ignores_page_args_witness :
    sync_first_page fixtureBCD noFaults 6 1 10 storeABC =
      sync_first_page fixtureBCD noFaults 6 7 99 storeABC ∧
    Req.listW 2 10 ∈ (sync_first_page fixtureBCD noFaults 6 1 10 storeABC).reqs ∧
    (10 : Nat) = 10 :=
  ⟨(sync_ignores_page_args fixtureBCD noFaults 6 1 10 7 99 storeABC).1,
   by decide,
   (sync_ignores_page_args fixtureBCD noFaults 6 1 10 7 99 storeABC).2
     (Req.listW 2 10) (by decide) 2 10 rfl⟩

/-- C10: `insert_sets_bulk` always reports the number of rows submitted
(`len(rows)`), not the number actually inserted — and, end to end, a second
sync over the unchanged remote reports the same nonzero `sets_inserted`
(here 3) while the stored set rows are unchanged. -/
theorem sets_inserted_counts_submitted_rows :
    (∀ (s : Store) (rows : List SetRow),
      (insert_sets_bulk s rows).2 = rows.length) ∧
    (match (sync_first_page fixtureBCD noFaults 6 1 10 emptyStore).outcome with
     | .ok (sum1, s1) =>
        sum1.sets_inserted = 3 ∧ s1.sets.length = 3 ∧
        (match (sync_first_page fixtureBCD noFaults 6 1 10 s1).outcome with
         | .ok (sum2, s2) => sum2.sets_inserted = 3 ∧ s2.sets = s1.sets
         | .error _ => False)
     | .error _ => False) := by
  exact ⟨fun s rows => rfl, rfl, rfl, rfl, rfl⟩

/-- C1: the deletion pass of one sync invocation deletes exactly the plain
set difference `local − remote`: membership in `syncToDelete` is exactly
(locally present ∧ remotely absent), `applyDeletion` keeps exactly the rows
whose id is not in that difference, and concretely, starting from local ids
`{A, B, C}` with remote ids `{B, C, D}`, one completed sync leaves workout
ids `[B, C, D]` with neither workout `A` nor any set row of `A` remaining. -/
theorem sync_deletion_set_difference :
    (∀ (rm : Remote) (fuel : Nat) (s0 : Store) (i : String),
      i ∈ syncToDelete rm fuel s0 ↔
        (i ∈ localIdSet s0 ∧ i ∉ syncHevyIds rm fuel)) ∧
    (∀ (s : Store) (td : List String) (w : DbWorkout),
      w ∈ (applyDeletion s td).workouts ↔ (w ∈ s.workouts ∧ w.id ∉ td)) ∧
    (match (sync_first_page fixtureBCD noFaults 6 1 10 storeABC).outcome with
     | .ok (sum, s') =>
        sum.workouts_deleted = 1 ∧
        s'.workouts.map (fun r => r.id) = ["B", "C", "D"] ∧
        s'.sets.countP (fun r => r.workout_id = "A") = 0
     | .error _ => False) := by
  refine ⟨?_, ?_, rfl, rfl, rfl⟩
  · intro rm fuel s0 i
    unfold syncToDelete workoutsToDelete
    rw [List.mem_filter]
    simp
  · intro s td w
    unfold applyDeletion
    by_cases he : td.isEmpty = true
    · rw [if_pos he]
      have hnil : td = [] := List.isEmpty_iff.mp he
      subst hnil
      simp
    · rw [if_neg he]
      simp [List.mem_filter]

/-- A store whose only failure is the `SELECT id FROM workouts` read inside
the deletion pass. -/
def badFaults : DbFaults := { noFaults with failReadLocal := true }

/-- C3 counterexample: with a healthy remote but the store raising on the
local-id read of the deletion pass, `sync_first_page` propagates the
exception (no summary is returned), because that `with get_db()` block is
the one region of the function not wrapped in `try/except`. -/
theorem sync_propagates_store_failure_cex :
    (sync_first_page fixtureBCD badFaults 6 1 10 storeABC).outcome.toOption =
      none := rfl

/-- C3 amended: `sync_first_page` returns a summary result for every
behaviour of the remote source and for store failures anywhere in the upsert
pass or the catalog sync — but only provided the store operations of the
deletion pass (transaction open, local-id read, the two deletes) succeed; a
failure there propagates to the caller (`main.sync_hevy` maps it to a 500). -/
theorem sync_returns_summary_unless_deletion_db_fails
    (rm : Remote) (faults : DbFaults) (fuel p psz : Nat) (s0 : Store)
    (h1 : faults.failGetDbDeletion = false) (h2 : faults.failReadLocal = false)
    (h3 : faults.failDeleteSets = false)
    (h4 : faults.failDeleteWorkouts = false) :
    ∃ sum s', (sync_first_page rm faults fuel p psz s0).outcome =
      .ok (sum, s') := by
  rw [sync_first_page_eq rm faults fuel p psz s0 h1 h2 h3 h4]
  exact ⟨_, _, rfl⟩

theorem sync_returns_summary_unless_deletion_db_fails_witness :
    (noFaults.failGetDbDeletion = false ∧ noFaults.failReadLocal = false ∧
     noFaults.failDeleteSets = false ∧ noFaults.failDeleteWorkouts = false) ∧
    ∃ sum s', (sync_first_page fixtureBCD noFaults 6 1 10 storeABC).outcome =
      .ok (sum, s') :=
  ⟨⟨rfl, rfl, rfl, rfl⟩,
   sync_returns_summary_unless_deletion_db_fails fixtureBCD noFaults 6 1 10
     storeABC rfl rfl rfl rfl⟩

theorem loopReqs_head_mem (rm : Remote) (faults : DbFaults) (fuel page : Nat) :
    Req.listW page 10 ∈ loopReqs rm faults (fuel + 1) page := by
  unfold loopReqs
  cases h : rm.list_workouts page 10 with
  | error e => simp
  | ok raw =>
    by_cases he : (raw.workouts.getD []).isEmpty
    · simp [he]
    · by_cases hfp : faults.failGetDbPage page
      · simp [he, hfp]
      · simp [he, hfp]

/-- C4 counterexample: against a remote holding three workouts, page 1 of
the upsert pass is short (3 < 10), and yet the pass still requests page 2 —
the claim that no request is issued for the page after a short page is
false on the code. -/
theorem upsert_pass_requests_next_after_short_page_cex :
    (chunkPage [mkRaw "B", mkRaw "C", mkRaw "D"] 1 10).length < 10 ∧
    Req.listW 2 10 ∈ (upsertLoop fixtureBCD noFaults 6 1
      { store := emptyStore, seen := 0, upserted := 0, sets_total := 0
        reqs := [] }).reqs :=
  ⟨by decide, by decide⟩

/-- C4 amended: the upsert pass's loop terminates at a transport error or at
an *empty* page — not at a short one. After any non-empty page it always
requests the following page (even when the page was short); when a page
comes back empty or its fetch raises, no further page is requested. -/
theorem upsert_pass_stops_only_on_empty_page (rm : Remote) (faults : DbFaults)
    (fuel page : Nat) (ps : PassState) :
    (∀ raw, rm.list_workouts page 10 = .ok raw →
      ¬ (raw.workouts.getD []).isEmpty = true →
      faults.failGetDbPage page = false → 2 ≤ fuel →
      Req.listW (page + 1) 10 ∈ (upsertLoop rm faults fuel page ps).reqs) ∧
    (∀ raw, rm.list_workouts page 10 = .ok raw →
      (raw.workouts.getD []).isEmpty = true →
      (upsertLoop rm faults (fuel + 1) page ps).reqs =
        ps.reqs ++ [Req.listW page 10]) ∧
    (rm.list_workouts page 10 = .error () →
      (upsertLoop rm faults (fuel + 1) page ps).reqs =
        ps.reqs ++ [Req.listW page 10]) := by
  refine ⟨?_, ?_, ?_⟩
  · intro raw hok hne hfp hfuel
    obtain ⟨f, rfl⟩ : ∃ f, fuel = f + 2 := ⟨fuel - 2, by omega⟩
    rw [upsertLoop_eq]
    apply List.mem_append_right
    unfold loopReqs
    rw [hok]
    simp only [hne, hfp, Bool.false_eq_true, if_false, ite_false]
    apply List.mem_cons_of_mem
    apply List.mem_append_right
    exact loopReqs_head_mem rm faults f (page + 1)
  · intro raw hok he
    rw [upsertLoop_eq]
    unfold loopReqs
    rw [hok]
    simp [he]
  · intro herr
    rw [upsertLoop_eq]
    unfold loopReqs
    rw [herr]

theorem upsert_pass_stops_only_on_empty_page_witness :
    (fixtureBCD.list_workouts 1 10 =
      .ok ⟨some (chunkPage [mkRaw "B", mkRaw "C", mkRaw "D"] 1 10)⟩) ∧
    ¬ (((⟨some (chunkPage [mkRaw "B", mkRaw "C", mkRaw "D"] 1 10)⟩ :
        WPage)).workouts.getD []).isEmpty = true ∧
    Req.listW 2 10 ∈ (upsertLoop fixtureBCD noFaults 6 1
      { store := emptyStore, seen := 0, upserted := 0, sets_total := 0
        reqs := [] }).reqs :=
  ⟨rfl, by decide,
   (upsert_pass_stops_only_on_empty_page fixtureBCD noFaults 6 1
     { store := emptyStore, seen := 0, upserted := 0, sets_total := 0
       reqs := [] }).1
     ⟨some (chunkPage [mkRaw "B", mkRaw "C", mkRaw "D"] 1 10)⟩
     rfl (by decide) rfl (by omega)⟩

/-- The id set accumulated from pages `j, j+1, …, k-1` of the page family
`pages`, in the enumeration loop's fold order. -/
def accPages (pages : Nat → List RawWorkout) (acc : List String)
    (j k : Nat) : List String :=
  if h : j < k then accPages pages (addPageIds acc (pages j)) (j + 1) k
  else acc
termination_by k - j

theorem collectLoop_failing_page (rm : Remote)
    (pages : Nat → List RawWorkout) (k : Nat)
    (hok : ∀ p, 1 ≤ p → p < k → rm.list_workouts p 10 = .ok ⟨some (pages p)⟩)
    (hfull : ∀ p, 1 ≤ p → p < k → (pages p).length = 10)
    (herr : rm.list_workouts k 10 = .error ()) :
    ∀ (fuel j : Nat) (acc : List String) (trace : List Req),
    1 ≤ j → j ≤ k → k - j + 1 ≤ fuel →
    (collectLoop rm fuel j acc trace).1 = accPages pages acc j k := by
  intro fuel
  induction fuel with
  | zero => intro j acc trace hj hjk hfuel; omega
  | succ fuel ih =>
    intro j acc trace hj hjk hfuel
    unfold collectLoop
    by_cases hjlt : j < k
    · rw [hok j hj hjlt]
      have hlen := hfull j hj hjlt
      have hne : ¬ (pages j).isEmpty = true := by
        rw [List.isEmpty_iff]
        intro hnil
        rw [hnil] at hlen
        simp at hlen
      have hnlt : ¬ (pages j).length < 10 := by omega
      simp only [Option.getD_some, hne, hnlt, Bool.false_eq_true, if_false,
        ite_false]
      rw [ih (j + 1) _ _ (by omega) (by omega) (by omega)]
      conv_rhs => rw [accPages]
      rw [dif_pos hjlt]
    · have hj_eq : j = k := by omega
      subst hj_eq
      rw [herr]
      conv_rhs => rw [accPages]
      rw [dif_neg hjlt]

/-- C5: if remote enumeration raises at page `k` after `k−1` full pages,
the enumeration loop stops there and yields exactly the ids collected from
pages `1..k−1` (no retry, no rollback); a failure on the first page yields
the empty id set; and the deletion pass then computes `local − collected`
from exactly that partial set. -/
theorem enumeration_stops_at_failed_page (rm : Remote)
    (pages : Nat → List RawWorkout) (fuel k : Nat) (hk1 : 1 ≤ k)
    (hok : ∀ p, 1 ≤ p → p < k → rm.list_workouts p 10 = .ok ⟨some (pages p)⟩)
    (hfull : ∀ p, 1 ≤ p → p < k → (pages p).length = 10)
    (herr : rm.list_workouts k 10 = .error ())
    (hfuel : k ≤ fuel) :
    syncHevyIds rm fuel = accPages pages [] 1 k ∧
    (k = 1 → syncHevyIds rm fuel = []) ∧
    (∀ s0 : Store, syncToDelete rm fuel s0 =
      (localIdSet s0).filter (fun i => i ∉ accPages pages [] 1 k)) := by
  have hmain : syncHevyIds rm fuel = accPages pages [] 1 k := by
    unfold syncHevyIds
    exact collectLoop_failing_page rm pages k hok hfull herr fuel 1 [] []
      (by omega) hk1 (by omega)
  refine ⟨hmain, ?_, ?_⟩
  · intro hk
    subst hk
    rw [hmain, accPages]
    rfl
  · intro s0
    unfold syncToDelete workoutsToDelete
    rw [hmain]

/-- A page family of ten distinct raw workouts. -/
def tenRaw : List RawWorkout :=
  [mkRaw "01", mkRaw "02", mkRaw "03", mkRaw "04", mkRaw "05",
   mkRaw "06", mkRaw "07", mkRaw "08", mkRaw "09", mkRaw "10"]

/-- A remote whose page 1 is full and whose page 2 raises. -/
def failPage2 : Remote :=
  { list_workouts := fun p _ =>
      if p = 1 then .ok ⟨some tenRaw⟩ else .error ()
    get_workout := fun _ => .error ()
    list_exercise_templates := noTemplates }

theorem enumeration_stops_at_failed_page_witness :
    (1 : Nat) ≤ 2 ∧ failPage2.list_workouts 2 10 = .error () ∧
    syncHevyIds failPage2 5 = accPages (fun _ => tenRaw) [] 1 2 :=
  ⟨by omega, rfl,
   (enumeration_stops_at_failed_page failPage2 (fun _ => tenRaw) 5 2
     (by omega)
     (fun p hp hpk => by
       have hp1 : p = 1 := by omega
       subst hp1
       rfl)
     (fun p hp hpk => by
       have hp1 : p = 1 := by omega
       subst hp1
       rfl)
     rfl (by omega)).1⟩

theorem sync_ex_templates_store (rm : Remote) (faults : DbFaults)
    (fuel : Nat) (s : Store) :
    (sync_exercise_templates rm faults fuel s).2.1.sets = s.sets ∧
    (sync_exercise_templates rm faults fuel s).2.1.workouts = s.workouts := by
  unfold sync_exercise_templates
  rw [show templatesLoop rm fuel 1 [] [] =
    ((templatesLoop rm fuel 1 [] []).1, (templatesLoop rm fuel 1 [] []).2)
    from rfl]
  split
  rename_i all_templates trace heq
  injection heq with heq1 heq2
  subst heq1
  subst heq2
  split
  · exact ⟨rfl, rfl⟩
  · split
    · exact ⟨rfl, rfl⟩
    · split
      exact ⟨rfl, rfl⟩

theorem applyDeletion_exercises (s : Store) (td : List String) :
    (applyDeletion s td).exercises = s.exercises := by
  unfold applyDeletion
  split <;> rfl

theorem applyDeletion_sets_mem (s : Store) (td : List String) (r : SetRow)
    (hr : r ∈ s.sets) (hnd : r.workout_id ∉ td) :
    r ∈ (applyDeletion s td).sets := by
  unfold applyDeletion
  split
  · exact hr
  · exact List.mem_filter.mpr ⟨hr, by simpa using hnd⟩

/-- C7: existing set rows are immutable under sync. The bulk insert never
modifies or removes a stored row (the old table is a prefix of the new one,
so both membership and by-id lookup are preserved — an incoming row whose id
already exists is silently skipped and a remote metric edit under unchanged
indices is never reflected); and across a whole fault-free invocation a
pre-existing set row either survives or its owning workout id was in the
reconciliation pass's deletion set. -/
theorem sets_immutable_under_sync :
    (∀ (s : Store) (rows : List SetRow) (r : SetRow), r ∈ s.sets →
      r ∈ (insert_sets_bulk s rows).1.sets) ∧
    (∀ (s : Store) (rows : List SetRow) (i : String) (r0 : SetRow),
      s.sets.find? (fun x => x.id = i) = some r0 →
      (insert_sets_bulk s rows).1.sets.find? (fun x => x.id = i) = some r0) ∧
    (∀ (rm : Remote) (fuel p psz : Nat) (s0 : Store) (sum : Summary)
      (s' : Store),
      (sync_first_page rm noFaults fuel p psz s0).outcome = .ok (sum, s') →
      ∀ r ∈ s0.sets, r ∈ s'.sets ∨ r.workout_id ∈ syncToDelete rm fuel s0) := by
  refine ⟨?_, ?_, ?_⟩
  · intro s rows r hr
    obtain ⟨extra, hx⟩ := insertSets_foldl_prefix rows s.sets
    rw [insert_sets_bulk_sets, hx]
    exact List.mem_append_left _ hr
  · intro s rows i r0 hfind
    obtain ⟨extra, hx⟩ := insertSets_foldl_prefix rows s.sets
    rw [insert_sets_bulk_sets, hx, List.find?_append, hfind]
    rfl
  · intro rm fuel p psz s0 sum s' hout r hr
    rw [sync_first_page_eq rm noFaults fuel p psz s0 rfl rfl rfl rfl] at hout
    injection hout with h
    have hs' : (syncExOutcome rm noFaults fuel s0).2.1 = s' :=
      congrArg Prod.snd h
    by_cases hdel : r.workout_id ∈ syncToDelete rm fuel s0
    · exact Or.inr hdel
    · left
      rw [← hs']
      unfold syncExOutcome
      rw [(sync_ex_templates_store rm noFaults fuel _).1]
      unfold syncPassState
      rw [upsertLoop_eq]
      exact upsStore_sets_mem_mono rm noFaults fuel 1 _ r
        (applyDeletion_sets_mem s0 _ r hr hdel)

/-- A summary placeholder used only as the unreachable fallback of the
extraction functions below. -/
def dummySummary : Summary :=
  { sync_type := "", workouts_seen := 0, workouts_upserted := 0
    sets_inserted := 0, workouts_deleted := 0, total_hevy_workouts := 0
    total_local_before := 0, ex_status := "", ex_imported_count := 0
    ex_total_templates := 0, ex_message := "" }

/-- The summary of the deletion-scenario run. -/
def sum1ABC : Summary :=
  match (sync_first_page fixtureBCD noFaults 6 1 10 storeABC).outcome with
  | .ok (sum, _) => sum
  | .error _ => dummySummary

/-- The final store of the deletion-scenario run. -/
def store1ABC : Store :=
  match (sync_first_page fixtureBCD noFaults 6 1 10 storeABC).outcome with
  | .ok (_, s) => s
  | .error _ => emptyStore

theorem sets_immutable_under_sync_witness :
    oldSetRow "B" ∈ storeABC.sets ∧
    (oldSetRow "B" ∈ store1ABC.sets ∨
      (oldSetRow "B").workout_id ∈ syncToDelete fixtureBCD 6 storeABC) :=
  ⟨by decide,
   sets_immutable_under_sync.2.2 fixtureBCD 6 1 10 storeABC sum1ABC store1ABC
     rfl (oldSetRow "B") (by decide)⟩

theorem sync_ex_templates_empty (rm : Remote) (faults : DbFaults)
    (fuel : Nat) (s : Store)
    (hEmpty : (templatesLoop rm fuel 1 [] []).1 = []) :
    sync_exercise_templates rm faults fuel s =
      ({ status := "error"
         message := "No exercise templates found in Hevy API"
         imported_count := 0, total_templates := 0 }, s,
       (templatesLoop rm fuel 1 [] []).2) := by
  unfold sync_exercise_templates
  rw [show templatesLoop rm fuel 1 [] [] =
    ((templatesLoop rm fuel 1 [] []).1, (templatesLoop rm fuel 1 [] []).2)
    from rfl]
  rw [hEmpty]
  simp

/-- C8: if the template pagination accumulates zero templates, the catalog
sync returns the structured error result (`status = "error"`,
`imported_count = 0`) with the store returned untouched; and the enclosing
fault-free sync invocation still completes, returning a summary that embeds
that catalog outcome while the `exercises` table is left as it was. -/
theorem catalog_empty_reports_error (rm : Remote) (faults : DbFaults)
    (fuel p psz : Nat) (s s0 : Store)
    (hEmpty : (templatesLoop rm fuel 1 [] []).1 = []) :
    sync_exercise_templates rm faults fuel s =
      ({ status := "error"
         message := "No exercise templates found in Hevy API"
         imported_count := 0, total_templates := 0 }, s,
       (templatesLoop rm fuel 1 [] []).2) ∧
    (∀ sum s', (sync_first_page rm noFaults fuel p psz s0).outcome =
        .ok (sum, s') →
      sum.ex_status = "error" ∧ sum.ex_imported_count = 0 ∧
        s'.exercises = s0.exercises) ∧
    (∃ sum s', (sync_first_page rm noFaults fuel p psz s0).outcome =
      .ok (sum, s')) := by
  refine ⟨sync_ex_templates_empty rm faults fuel s hEmpty, ?_, ?_⟩
  · intro sum s' hout
    rw [sync_first_page_eq rm noFaults fuel p psz s0 rfl rfl rfl rfl] at hout
    injection hout with h
    have hsum : syncOkSummary rm noFaults fuel s0 = sum := congrArg Prod.fst h
    have hs' : (syncExOutcome rm noFaults fuel s0).2.1 = s' :=
      congrArg Prod.snd h
    have hexo : syncExOutcome rm noFaults fuel s0 =
        ({ status := "error"
           message := "No exercise templates found in Hevy API"
           imported_count := 0, total_templates := 0 },
         (syncPassState rm noFaults fuel s0).store,
         (templatesLoop rm fuel 1 [] []).2) := by
      unfold syncExOutcome
      exact sync_ex_templates_empty rm noFaults fuel _ hEmpty
    refine ⟨?_, ?_, ?_⟩
    · rw [← hsum]
      unfold syncOkSummary
      rw [hexo]
    · rw [← hsum]
      unfold syncOkSummary
      rw [hexo]
    · rw [← hs', hexo]
      unfold syncPassState
      rw [upsertLoop_eq]
      rw [show ∀ st : Store, (upsStore rm noFaults fuel 1 st).exercises =
        st.exercises from fun st => upsStore_exercises rm noFaults fuel 1 st]
      exact applyDeletion_exercises s0 _
  · rw [sync_first_page_eq rm noFaults fuel p psz s0 rfl rfl rfl rfl]
    exact ⟨_, _, rfl⟩

theorem catalog_empty_reports_error_witness :
    (templatesLoop fixtureBCD 6 1 [] []).1 = [] ∧
    sync_exercise_templates fixtureBCD noFaults 6 storeABC =
      ({ status := "error"
         message := "No exercise templates found in Hevy API"
         imported_count := 0, total_templates := 0 }, storeABC,
       (templatesLoop fixtureBCD 6 1 [] []).2) :=
  ⟨rfl, (catalog_empty_reports_error fixtureBCD noFaults 6 1 10 storeABC
    storeABC rfl).1⟩

theorem applyDeletion_workouts_sub (s : Store) (td : List String)
    (w : DbWorkout) (hw : w ∈ (applyDeletion s td).workouts) :
    w ∈ s.workouts ∧ w.id ∉ td := by
  unfold applyDeletion at hw
  by_cases he : td.isEmpty = true
  · rw [if_pos he] at hw
    have hnil : td = [] := List.isEmpty_iff.mp he
    subst hnil
    exact ⟨hw, by simp⟩
  · rw [if_neg he] at hw
    have := List.mem_filter.mp hw
    exact ⟨this.1, by simpa using this.2⟩

theorem applyDeletion_nodup (s : Store) (td : List String)
    (hnd : (s.workouts.map (fun r => r.id)).Nodup) :
    ((applyDeletion s td).workouts.map (fun r => r.id)).Nodup := by
  unfold applyDeletion
  split
  · exact hnd
  · exact hnd.sublist (List.Sublist.map _ (List.filter_sublist _))

theorem applyDeletion_nil (s : Store) : applyDeletion s [] = s := rfl

theorem fixture_hevyIds (ws : List RawWorkout)
    (det : String → Except Unit WorkoutDetail)
    (tpl : Nat → Nat → Except Unit TPage) (fuel : Nat)
    (hfuel : ws.length + 1 ≤ fuel) :
    syncHevyIds (fixtureRemote ws det tpl) fuel = addPageIds [] ws := by
  have h00 : ((1 : Nat) - 1) * 10 = 0 := by norm_num
  unfold syncHevyIds
  have h := collectLoop_fixture ws det tpl fuel 1 [] [] (by omega)
    (by rw [h00, List.drop_zero]; exact hfuel)
  rw [h00, List.drop_zero] at h
  exact h

theorem fixture_upsStore_all (ws : List RawWorkout)
    (det : String → Except Unit WorkoutDetail)
    (tpl : Nat → Nat → Except Unit TPage) (faults : DbFaults)
    (hpf : ∀ p, faults.failGetDbPage p = false) (fuel : Nat) (s : Store)
    (hfuel : ws.length + 1 ≤ fuel) :
    upsStore (fixtureRemote ws det tpl) faults fuel 1 s =
      pwStores (fixtureRemote ws det tpl) faults ws s := by
  have h00 : ((1 : Nat) - 1) * 10 = 0 := by norm_num
  have h := upsStore_fixture ws det tpl faults hpf fuel 1 s (by omega)
    (by rw [h00, List.drop_zero]; exact hfuel)
  rw [h00, List.drop_zero] at h
  exact h

theorem syncOkSummary_counters (rm : Remote) (faults : DbFaults)
    (fuel : Nat) (s0 : Store) :
    (syncOkSummary rm faults fuel s0).workouts_seen =
      (loopCnt rm faults fuel 1).1 ∧
    (syncOkSummary rm faults fuel s0).workouts_upserted =
      (loopCnt rm faults fuel 1).2.1 ∧
    (syncOkSummary rm faults fuel s0).sets_inserted =
      (loopCnt rm faults fuel 1).2.2 := by
  unfold syncOkSummary syncPassState
  rw [upsertLoop_eq]
  exact ⟨by simp, by simp, by simp⟩

/-- C2: against an unchanged, well-paginated remote fixture (a fixed workout
collection served in chunked pages, remote ids duplicate-free, deterministic
detail and template endpoints), running `sync_first_page` a second time from
the store the first run produced leaves the stored workout and set rows
identical — the second run's upserts rewrite each row with the same field
values, its set inserts are all skipped because every derived set id already
exists, and its summary counters (`workouts_seen`, `workouts_upserted`,
`sets_inserted`) equal the first run's. -/
theorem sync_idempotent_on_fixture (ws : List RawWorkout)
    (det : String → Except Unit WorkoutDetail)
    (tpl : Nat → Nat → Except Unit TPage) (s0 : Store) (fuel : Nat)
    (hndw : (ws.filterMap truthyId).Nodup)
    (hnds : (s0.workouts.map (fun r => r.id)).Nodup)
    (hfuel : ws.length + 2 ≤ fuel) :
    ∃ sum1 s1 sum2 s2,
      (sync_first_page (fixtureRemote ws det tpl) noFaults fuel 1 10
        s0).outcome = .ok (sum1, s1) ∧
      (sync_first_page (fixtureRemote ws det tpl) noFaults fuel 1 10
        s1).outcome = .ok (sum2, s2) ∧
      s2.workouts = s1.workouts ∧ s2.sets = s1.sets ∧
      sum2.workouts_seen = sum1.workouts_seen ∧
      sum2.workouts_upserted = sum1.workouts_upserted ∧
      sum2.sets_inserted = sum1.sets_inserted := by
  have hfuel1 : ws.length + 1 ≤ fuel := by omega
  set rm := fixtureRemote ws det tpl with hrm
  set s1 := (syncExOutcome rm noFaults fuel s0).2.1 with hs1
  set sA := applyDeletion s0 (syncToDelete rm fuel s0) with hsA
  set sB := pwStores rm noFaults ws sA with hsB
  have hps1 : (syncPassState rm noFaults fuel s0).store = sB := by
    unfold syncPassState
    rw [upsertLoop_eq]
    exact fixture_upsStore_all ws det tpl noFaults (fun p => rfl) fuel sA hfuel1
  have hw1 : s1.workouts = sB.workouts := by
    rw [hs1]
    unfold syncExOutcome
    rw [(sync_ex_templates_store rm noFaults fuel _).2, hps1]
  have hsets1 : s1.sets = sB.sets := by
    rw [hs1]
    unfold syncExOutcome
    rw [(sync_ex_templates_store rm noFaults fuel _).1, hps1]
  have hndA : ((sA.workouts.map (fun r => r.id))).Nodup :=
    applyDeletion_nodup s0 _ hnds
  have hndB : ((sB.workouts.map (fun r => r.id))).Nodup :=
    pwStores_nodup rm noFaults ws sA hndA
  have hnd1 : ((s1.workouts.map (fun r => r.id))).Nodup := by
    rw [hw1]; exact hndB
  have hH := fixture_hevyIds ws det tpl fuel hfuel1
  -- every workout id in the post-run-1 store is a remote id
  have hidsH : ∀ j ∈ s1.workouts.map (fun r => r.id), j ∈ addPageIds [] ws := by
    intro j hj
    rw [hw1, hsB] at hj
    rcases pwStores_ids_subset rm noFaults ws sA j hj with h | ⟨w, hw, ht⟩
    · obtain ⟨w, hwmem, rfl⟩ := List.mem_map.mp h
      rw [hsA] at hwmem
      obtain ⟨hw0, hntd⟩ := applyDeletion_workouts_sub s0 _ w hwmem
      by_contra hnotH
      apply hntd
      unfold syncToDelete workoutsToDelete
      rw [List.mem_filter]
      refine ⟨(mem_localIdSet s0 w.id).mpr (List.mem_map_of_mem _ hw0), ?_⟩
      rw [hH]
      simpa using hnotH
    · exact (mem_addPageIds ws [] j).mpr (Or.inr ⟨w, hw, ht⟩)
  -- the second run's deletion set is empty
  have htd1 : syncToDelete rm fuel s1 = [] := by
    unfold syncToDelete workoutsToDelete
    rw [List.filter_eq_nil_iff]
    intro a ha
    have haH := hidsH a ((mem_localIdSet s1 a).mp ha)
    rw [hH]
    simpa using haH
  have hps2 : (syncPassState rm noFaults fuel s1).store =
      pwStores rm noFaults ws s1 := by
    unfold syncPassState
    rw [upsertLoop_eq]
    show upsStore rm noFaults fuel 1 (applyDeletion s1 (syncToDelete rm fuel s1)) = _
    rw [htd1, applyDeletion_nil]
    exact fixture_upsStore_all ws det tpl noFaults (fun p => rfl) fuel s1 hfuel1
  -- the second run's upsert pass is a strict no-op on the store
  have hnoop : pwStores rm noFaults ws s1 = s1 := by
    apply pwStores_noop rm ws s1 hnd1
    intro w hw
    cases ht : truthyId w with
    | none => exact Or.inl rfl
    | some i =>
      refine Or.inr ⟨i, rfl, ?_, ?_⟩
      · rw [show findW s1.workouts i = findW sB.workouts i from by rw [hw1]]
        rw [hsB]
        exact pwStores_findW_self rm noFaults ws sA w i hndw hw ht rfl
      · intro detail hd r hr
        rw [show s1.sets = sB.sets from hsets1, hsB]
        exact pwStores_set_present rm noFaults ws sA w i detail hw ht rfl hd
          rfl r hr
  refine ⟨syncOkSummary rm noFaults fuel s0, s1,
    syncOkSummary rm noFaults fuel s1,
    (syncExOutcome rm noFaults fuel s1).2.1, ?_, ?_, ?_, ?_, ?_, ?_, ?_⟩
  · rw [sync_first_page_eq rm noFaults fuel 1 10 s0 rfl rfl rfl rfl]
  · rw [sync_first_page_eq rm noFaults fuel 1 10 s1 rfl rfl rfl rfl]
  · show (syncExOutcome rm noFaults fuel s1).2.1.workouts = s1.workouts
    unfold syncExOutcome
    rw [(sync_ex_templates_store rm noFaults fuel _).2, hps2, hnoop]
  · show (syncExOutcome rm noFaults fuel s1).2.1.sets = s1.sets
    unfold syncExOutcome
    rw [(sync_ex_templates_store rm noFaults fuel _).1, hps2, hnoop]
  · rw [(syncOkSummary_counters rm noFaults fuel s1).1,
      (syncOkSummary_counters rm noFaults fuel s0).1]
  · rw [(syncOkSummary_counters rm noFaults fuel s1).2.1,
      (syncOkSummary_counters rm noFaults fuel s0).2.1]
  · rw [(syncOkSummary_counters rm noFaults fuel s1).2.2,
      (syncOkSummary_counters rm noFaults fuel s0).2.2]

theorem sync_idempotent_on_fixture_witness :
    ([mkRaw "B", mkRaw "C", mkRaw "D"].filterMap truthyId).Nodup ∧
    (emptyStore.workouts.map (fun r => r.id)).Nodup ∧
    ∃ sum1 s1 sum2 s2,
      (sync_first_page
        (fixtureRemote [mkRaw "B", mkRaw "C", mkRaw "D"] detOneSet noTemplates)
        noFaults 6 1 10 emptyStore).outcome = .ok (sum1, s1) ∧
      (sync_first_page
        (fixtureRemote [mkRaw "B", mkRaw "C", mkRaw "D"] detOneSet noTemplates)
        noFaults 6 1 10 s1).outcome = .ok (sum2, s2) ∧
      s2.workouts = s1.workouts ∧ s2.sets = s1.sets ∧
      sum2.workouts_seen = sum1.workouts_seen ∧
      sum2.workouts_upserted = sum1.workouts_upserted ∧
      sum2.sets_inserted = sum1.sets_inserted :=
  ⟨by decide, by decide,
   sync_idempotent_on_fixture [mkRaw "B", mkRaw "C", mkRaw "D"] detOneSet
     noTemplates emptyStore 6 (by decide) (by decide) (by decide)⟩

end HevySync
